import Mathlib

/-! # rmcd: native amount arithmetic and ticket creation

A shallow embedding of

* `src/ripple/protocol/SystemParameters.h` (the supply constants),
* `src/ripple/protocol/XRPAmount.h` (`XRPAmount`, `mulRatio`, `isLegalAmount`),
* `src/ripple/app/tx/impl/CreateTicket.cpp` (`CreateTicket::doApply`).

Machine integers are mathematical integers together with explicit range
predicates; the 128-bit intermediate of `mulRatio` never overflows for a 64-bit
amount and a 32-bit numerator, so it is an unbounded `Int`.
-/

namespace ripple

/-! ## SystemParameters.h -/

/-- Initial 10757 RMCs for the genesis ledger. -/
def SYSTEM_CURRENCY_COINS : Nat := 10757

/-- Number of drops per 1 RMC. -/
def SYSTEM_CURRENCY_PARTS : Nat := 1000000

/-- Number of drops in the genesis account (a `std::uint64_t` product). -/
def SYSTEM_CURRENCY_START : Nat := (SYSTEM_CURRENCY_COINS * SYSTEM_CURRENCY_PARTS) % 2 ^ 64

/-! ## Machine integer ranges -/

/-- Value of `std::numeric_limits<std::int64_t>::min ()`. -/
def INT64_MIN : Int := -(2 ^ 63)

/-- Value of `std::numeric_limits<std::int64_t>::max ()`. -/
def INT64_MAX : Int := 2 ^ 63 - 1

/-- Value of `std::numeric_limits<std::uint32_t>::max ()`. -/
def UINT32_MAX : Nat := 2 ^ 32 - 1

/-- The integer `x` is representable as a `std::int64_t`. -/
def isInt64 (x : Int) : Prop := INT64_MIN ≤ x ∧ x ≤ INT64_MAX

instance (x : Int) : Decidable (isInt64 x) := by
  unfold isInt64
  infer_instance

/-- The natural number `n` is representable as a `std::uint32_t`. -/
def isUInt32 (n : Nat) : Prop := n ≤ UINT32_MAX

instance (n : Nat) : Decidable (isUInt32 n) := by
  unfold isUInt32
  infer_instance

/-! ## XRPAmount.h -/

/-- The class `XRPAmount`: one private member `std::int64_t drops_`.  The range
proof is the type of the member. -/
@[ext]
structure XRPAmount where
  /-- The member `drops_`, read by `drops ()`. -/
  drops : Int
  /-- The member is a `std::int64_t`. -/
  inRange : isInt64 drops

instance : DecidableEq XRPAmount := fun a b =>
  if h : a.drops = b.drops then isTrue (XRPAmount.ext h)
  else isFalse (fun e => h (congrArg XRPAmount.drops e))

/-- The two exceptions `mulRatio` throws, with their messages. -/
inductive Exception where
  | runtime_error (what : String)
  | overflow_error (what : String)
  deriving DecidableEq, Repr

instance : DecidableEq (Except Exception XRPAmount) := fun x y =>
  match x, y with
  | .ok a, .ok b =>
    if h : a = b then isTrue (congrArg Except.ok h)
    else isFalse (fun e => h (Except.ok.inj e))
  | .error a, .error b =>
    if h : a = b then isTrue (congrArg Except.error h)
    else isFalse (fun e => h (Except.error.inj e))
  | .ok _, .error _ => isFalse (fun e => nomatch e)
  | .error _, .ok _ => isFalse (fun e => nomatch e)

/-- The narrowing `int128_t::convert_to<std::int64_t> ()` of Boost.Multiprecision,
which is not part of this repository.  It returns a `std::int64_t`, and it is the
identity on every value that fits; what it returns for a value that does not fit
depends on the Boost release (low 64 bits, or the nearest bound), so that part is
left open. -/
structure Int128Conversion where
  /-- The converted value. -/
  convert_to : Int → Int
  /-- The result type is `std::int64_t`. -/
  range : ∀ r, isInt64 (convert_to r)
  /-- A value that fits is converted exactly. -/
  exact : ∀ r, isInt64 r → convert_to r = r

/-- Two's-complement reading of the low 64 bits of `r`. -/
def wrapInt64 (r : Int) : Int := (r + 2 ^ 63) % 2 ^ 64 - 2 ^ 63

/-- Nearest `std::int64_t` to `r`. -/
def clampInt64 (r : Int) : Int :=
  if r < INT64_MIN then INT64_MIN else if r > INT64_MAX then INT64_MAX else r

/-- A conversion that keeps the low 64 bits of a value that does not fit. -/
def truncatingConversion : Int128Conversion where
  convert_to := wrapInt64
  range := by
    intro r
    unfold isInt64 wrapInt64 INT64_MIN INT64_MAX
    omega
  exact := by
    intro r h
    unfold isInt64 INT64_MIN INT64_MAX at h
    unfold wrapInt64
    omega

/-- A conversion that saturates on a value that does not fit. -/
def saturatingConversion : Int128Conversion where
  convert_to := clampInt64
  range := by
    intro r
    unfold isInt64 clampInt64 INT64_MIN INT64_MAX
    split_ifs <;> omega
  exact := by
    intro r h
    unfold isInt64 INT64_MIN INT64_MAX at h
    unfold clampInt64 INT64_MIN INT64_MAX
    split_ifs <;> omega

/-- The function `mulRatio (amt, num, den, roundUp)` of XRPAmount.h.  `num` and
`den` are `std::uint32_t`; `m` and `r` are `int128_t`, whose `/` and `%`
truncate toward zero. -/
def mulRatio (cv : Int128Conversion) (amt : XRPAmount) (num den : Nat) (roundUp : Bool) :
    Except Exception XRPAmount :=
  if den = 0 then
    .error (.runtime_error "division by zero")
  else
    let amt128 : Int := amt.drops
    let neg : Bool := decide (amt.drops < 0)
    let m : Int := amt128 * (num : Int)
    let r0 : Int := m.tdiv (den : Int)
    let r : Int :=
      if m.tmod (den : Int) ≠ 0 then
        let r1 := if (!neg && roundUp) = true then r0 + 1 else r0
        if (neg && !roundUp) = true then r1 - 1 else r1
      else r0
    if r > INT64_MAX then
      .error (.overflow_error "RMC mulRatio overflow")
    else
      .ok ⟨cv.convert_to r, cv.range r⟩

/-- The function `isLegalAmount`: true if the amount does not exceed the initial
RMC in existence.  The bound is `static_cast<std::int64_t> (SYSTEM_CURRENCY_START)`;
the assertion of the source, that the constant fits, always holds. -/
def isLegalAmount (amount : XRPAmount) : Bool :=
  decide (amount.drops ≤ wrapInt64 (SYSTEM_CURRENCY_START : Int))

/-- The converting constructor `XRPAmount (Integer drops)`, for any integral
type: the member is `static_cast<std::int64_t> (drops)`, the value of `drops`
reduced modulo 2^64 into the signed range. -/
def XRPAmount.ofInteger (drops : Int) : XRPAmount :=
  ⟨wrapInt64 drops, by
    unfold isInt64 wrapInt64 INT64_MIN INT64_MAX
    omega⟩

/-- The member `operator+=`, from which `boost::additive` makes `operator+`.
The sum is a `std::int64_t` sum; where it leaves the range (undefined in C++) it
is taken modulo 2^64. -/
def XRPAmount.opAddAssign (self other : XRPAmount) : XRPAmount :=
  XRPAmount.ofInteger (self.drops + other.drops)

/-- The member `operator-=`, from which `boost::additive` makes `operator-`.
The difference is a `std::int64_t` difference, taken as the sum is. -/
def XRPAmount.opSubAssign (self other : XRPAmount) : XRPAmount :=
  XRPAmount.ofInteger (self.drops - other.drops)

/-- The member `operator==`. -/
def XRPAmount.opEq (self other : XRPAmount) : Bool :=
  decide (self.drops = other.drops)

/-- The member `operator<`. -/
def XRPAmount.opLt (self other : XRPAmount) : Bool :=
  decide (self.drops < other.drops)

/-- The member `explicit operator bool`: true if the amount is not zero. -/
def XRPAmount.opBool (self : XRPAmount) : Bool :=
  decide (self.drops ≠ 0)

/-- The member `signum`: the sign of the amount. -/
def XRPAmount.signum (self : XRPAmount) : Int :=
  if self.drops < 0 then -1 else (if self.drops ≠ 0 then 1 else 0)

/-! ## The ledger objects CreateTicket.cpp works on

The transactor base class, the ledger entry class `SLE`, the ledger view and the
index functions are declared in headers that are not part of `src/`.  The types
below carry what `CreateTicket.cpp` reads and writes through them. -/

/-- A 160-bit account identifier (`AccountID`). -/
abbrev AccountID := Nat

/-- A 256-bit ledger index (`uint256`). -/
abbrev Key := Nat

/-- The transaction results `CreateTicket.cpp` names, and every other result a
collaborator may hand back (`other`, with its numeric code). -/
inductive TER where
  | tesSUCCESS
  | tecINSUFFICIENT_RESERVE
  | tecNO_TARGET
  | temBAD_EXPIRATION
  | temDISABLED
  | other (code : Int)
  deriving DecidableEq, Repr

/-- The ledger entry types. -/
inductive LedgerEntryType where
  | ltACCOUNT_ROOT
  | ltDIR_NODE
  | ltTICKET
  | ltOTHER (code : Nat)
  deriving DecidableEq, Repr

/-- A serialized ledger entry (`SLE`): its type, its index, and the fields
`CreateTicket.cpp` reads or sets.  `none` is an absent field. -/
structure SLE where
  /-- The entry type given to the constructor. -/
  getType : LedgerEntryType
  /-- The index given to the constructor, read by `getIndex ()`. -/
  index : Key
  sfAccount : Option AccountID
  sfSequence : Option Nat
  sfExpiration : Option Nat
  sfTarget : Option AccountID
  sfOwnerNode : Option Nat
  sfOwnerCount : Option Nat
  sfBalance : Option Int
  deriving DecidableEq, Repr

/-- The call `std::make_shared<SLE> (type, index)`: an entry with no field set. -/
def SLE.make (type : LedgerEntryType) (index : Key) : SLE :=
  { getType := type, index := index, sfAccount := none, sfSequence := none,
    sfExpiration := none, sfTarget := none, sfOwnerNode := none, sfOwnerCount := none,
    sfBalance := none }

/-- The call `getFieldU32 (field)`. -/
def getFieldU32 (field : Option Nat) : Nat := field.getD 0

/-- The transaction `mTxn`, as far as `CreateTicket` reads it: the optional
fields `sfExpiration` (32 bits) and `sfTarget`, and the sequence number. -/
structure STTx where
  sfExpiration : Option Nat
  sfTarget : Option AccountID
  getSequence : Nat
  deriving DecidableEq, Repr

/-- Modelled from the spec: the ledger view of ViewAPI.h, which is not under
`src/`.  The state entries are an association list read from the front; the
owner directories are a component `D` of their own (the spec keeps the pages in
an explicit index owned by the directory). -/
structure View (D : Type) where
  items : List SLE
  dirs : D
  deriving DecidableEq

/-- Modelled from the spec: `peek(key) → object-or-absent` (read, no mutation). -/
def View.peek {D : Type} (view : View D) (key : Key) : Option SLE :=
  view.items.find? (fun sle => decide (sle.index = key))

/-- Modelled from the spec: `insert(object)` (fails if key already present).
A failed insert is `none`: the call does not come back with a view. -/
def View.insert {D : Type} (view : View D) (sle : SLE) : Option (View D) :=
  if (view.peek sle.index).isSome then none
  else some { view with items := sle :: view.items }

/-- The entry that `peek key` finds, replaced by its image under `f`. -/
def modifyFirst (key : Key) (f : SLE → SLE) : List SLE → List SLE
  | [] => []
  | sle :: rest =>
    if sle.index = key then f sle :: rest else sle :: modifyFirst key f rest

/-- A write through an `SLE::pointer` that the view holds: the entry found under
`key` is changed in place. -/
def View.modify {D : Type} (view : View D) (key : Key) (f : SLE → SLE) : View D :=
  { view with items := modifyFirst key f view.items }

/-- Modelled from the spec: `adjustOwnerCount(account, delta)` (mutates the
account entry's owner-count by the signed delta).  ViewAPI.h is not under
`src/`. -/
def adjustOwnerCount {D : Type} (view : View D) (account : Key) (amount : Int) : View D :=
  view.modify account (fun sle =>
    { sle with sfOwnerCount := some (((getFieldU32 sle.sfOwnerCount : Int) + amount).toNat) })

/-- The ledger `mEngine->getLedger ()`, as far as `CreateTicket` reads it: the
reserve schedule and the parent close time (32 bits). -/
structure Ledger where
  getReserve : Nat → Nat
  getParentCloseTimeNC : Nat

/-- The free functions of Indexes.h and ViewAPI.h that `doApply` calls and whose
bodies are not under `src/`: the three index functions, and `dirAdd`, which
takes the directories, the root index, the entry index and the account the
describer closes over, and gives back its result, the hint and the directories
it leaves.  It reads and writes directory pages only. -/
structure ViewAPI (D : Type) where
  getTicketIndex : AccountID → Nat → Key
  /-- The key of `keylet::account (id)`. -/
  account : AccountID → Key
  getOwnerDirIndex : AccountID → Key
  dirAdd : D → Key → Key → AccountID → TER × Nat × D

/-- The members of the transactor that `CreateTicket` reads.  `mTxnAccount` is an
`SLE::pointer` into the view: it is kept as the key of the entry it points to,
and it is null when the view has no entry there. -/
structure CreateTicket where
  mTxn : STTx
  mTxnAccountID : AccountID
  mTxnAccount : Key
  mPriorBalance : Int
  deriving DecidableEq, Repr

/-! ## CreateTicket.cpp -/

/-- The method `getAccountReserve`: the reserve the account would have if an
offer was added.  The sum is a 32-bit unsigned sum. -/
def CreateTicket.getAccountReserve (ledger : Ledger) (account : SLE) : Int :=
  ((ledger.getReserve ((getFieldU32 account.sfOwnerCount + 1) % 2 ^ 32) : Nat) : Int)

/-- The ticket as `doApply` has built it when it inserts it (lines 89 to 94). -/
def CreateTicket.newTicket {D : Type} (api : ViewAPI D) (self : CreateTicket)
    (expiration : Nat) : SLE :=
  let sleTicket := SLE.make .ltTICKET
    (api.getTicketIndex self.mTxnAccountID self.mTxn.getSequence)
  let sleTicket := { sleTicket with sfAccount := some self.mTxnAccountID }
  let sleTicket := { sleTicket with sfSequence := some self.mTxn.getSequence }
  if expiration ≠ 0 then { sleTicket with sfExpiration := some expiration } else sleTicket

/-- Lines 113 to 138 of `doApply`: the directory insertion, and on its success
the hint on the ticket and the owner count. -/
def CreateTicket.addToOwnerDir {D : Type} (api : ViewAPI D) (self : CreateTicket)
    (ticket : Key) (view : View D) : TER × View D :=
  match api.dirAdd view.dirs (api.getOwnerDirIndex self.mTxnAccountID) ticket
      self.mTxnAccountID with
  | (result, hint, dirs) =>
    let view := { view with dirs := dirs }
    if result ≠ TER.tesSUCCESS then
      (result, view)
    else
      let view := view.modify ticket (fun sle => { sle with sfOwnerNode := some hint })
      let view := adjustOwnerCount view self.mTxnAccount 1
      (result, view)

/-- The method `CreateTicket::doApply`.  The result is the returned code and the
view as the call leaves it; `none` is a call that does not return (the assertion
on `mTxnAccount`, or an insert that fails). -/
def CreateTicket.doApply {D : Type} (ledger : Ledger) (api : ViewAPI D) (self : CreateTicket)
    (view : View D) : Option (TER × View D) :=
  match view.peek self.mTxnAccount with
  | none => none
  | some account =>
    if self.mPriorBalance < CreateTicket.getAccountReserve ledger account then
      some (TER.tecINSUFFICIENT_RESERVE, view)
    else
      let expiration : Nat :=
        match self.mTxn.sfExpiration with
        | some e => e
        | none => 0
      if self.mTxn.sfExpiration.isSome = true ∧ ledger.getParentCloseTimeNC ≥ expiration then
        some (TER.tesSUCCESS, view)
      else
        let sleTicket := CreateTicket.newTicket api self expiration
        match view.insert sleTicket with
        | none => none
        | some view =>
          match self.mTxn.sfTarget with
          | none => some (CreateTicket.addToOwnerDir api self sleTicket.index view)
          | some target_account =>
            match view.peek (api.account target_account) with
            | none => some (TER.tecNO_TARGET, view)
            | some _ =>
              if target_account ≠ self.mTxnAccountID then
                some (CreateTicket.addToOwnerDir api self sleTicket.index
                  (view.modify sleTicket.index
                    (fun sle => { sle with sfTarget := some target_account })))
              else
                some (CreateTicket.addToOwnerDir api self sleTicket.index view)

/-- The value of the local `expiration` of `doApply` once lines 79 to 83 have run. -/
def CreateTicket.expiration (self : CreateTicket) : Nat :=
  match self.mTxn.sfExpiration with
  | some e => e
  | none => 0

/-- The transactor of the same transaction with the target field left out. -/
def CreateTicket.withoutTarget (self : CreateTicket) : CreateTicket :=
  { self with mTxn := { self.mTxn with sfTarget := none } }

/-- Modelled from the spec: the members of the base class `Transactor` that
CreateTicket.cpp calls and whose bodies (Transactor.cpp) are not under `src/`.
`preCheck` is "stateless structural validation against the transaction's own
fields only (no ledger access)": a function of the transaction.  `apply` runs
the stages of a transactor built from a transaction and the engine parameters
on the view of the engine. -/
structure Transactor (D : Type) where
  preCheck : STTx → TER
  apply : STTx → Nat → View D → Option (TER × View D)

/-- What a call of `preCheck` can reach: the transactor, the view of its engine,
and the lines written to `m_journal.warning`. -/
structure PreCheckState (D : Type) where
  self : CreateTicket
  view : View D
  journal : List String
  deriving DecidableEq

/-- The method `CreateTicket::preCheck`: the result and the state the call
leaves. -/
def CreateTicket.preCheck {D : Type} (base : Transactor D) (st : PreCheckState D) :
    TER × PreCheckState D :=
  if st.self.mTxn.sfExpiration.isSome = true then
    if getFieldU32 st.self.mTxn.sfExpiration = 0 then
      (TER.temBAD_EXPIRATION,
        { st with journal := st.journal ++ ["Malformed transaction: bad expiration"] })
    else
      (base.preCheck st.self.mTxn, st)
  else
    (base.preCheck st.self.mTxn, st)

/-- The engine `TransactionEngine* engine`, as far as `transact_CreateTicket`
reads it: the ticket feature flag, and the view the transactors work on. -/
structure TransactionEngine (D : Type) where
  enableTickets : Bool
  view : View D

/-- The function `transact_CreateTicket (txn, params, engine)`: the result and
the view of the engine after the call. -/
def transact_CreateTicket {D : Type} (base : Transactor D) (txn : STTx) (params : Nat)
    (engine : TransactionEngine D) : Option (TER × View D) :=
  if (!engine.enableTickets) = true then
    some (TER.temDISABLED, engine.view)
  else
    base.apply txn params engine.view

/-- The target the ticket carries once lines 97 to 111 have run without the
early return: the target of the transaction unless it is the owner. -/
def CreateTicket.storedTarget (self : CreateTicket) : Option AccountID :=
  match self.mTxn.sfTarget with
  | none => none
  | some target_account =>
    if target_account ≠ self.mTxnAccountID then some target_account else none

/-! ## A small ledger to run the code on -/

/-- A reserve schedule: 200 drops, and 50 more for each owned object. -/
def sampleLedger : Ledger :=
  { getReserve := fun n => 200 + 50 * n, getParentCloseTimeNC := 1000 }

/-- Index functions that keep the three kinds of index apart, and a directory
that is the list of (root, entry) pairs; the hint is the earlier length. -/
def sampleAPI : ViewAPI (List (Key × Key)) :=
  { getTicketIndex := fun id seq => 3 * (1000 * id + seq) + 1,
    account := fun id => 3 * id,
    getOwnerDirIndex := fun id => 3 * id + 2,
    dirAdd := fun dirs root entry _ => (TER.tesSUCCESS, dirs.length, dirs ++ [(root, entry)]) }

/-- The same functions with a directory that is full. -/
def fullDirAPI : ViewAPI (List (Key × Key)) :=
  { sampleAPI with dirAdd := fun dirs _ _ _ => (TER.other 121, 0, dirs) }

/-- The account root of account `id` with the given owner count and balance. -/
def sampleAccount (id : AccountID) (ownerCount : Nat) (balance : Int) : SLE :=
  { SLE.make .ltACCOUNT_ROOT (sampleAPI.account id) with
    sfAccount := some id, sfSequence := some 1, sfOwnerCount := some ownerCount,
    sfBalance := some balance }

/-- A view with the accounts 7 (two owned objects) and 9, and no directory. -/
def sampleView : View (List (Key × Key)) :=
  { items := [sampleAccount 7 2 340, sampleAccount 9 0 1000], dirs := [] }

/-- Account 7 creates a ticket with sequence 4. -/
def sampleTicketTx (expiration : Option Nat) (target : Option AccountID) (prior : Int) :
    CreateTicket :=
  { mTxn := { sfExpiration := expiration, sfTarget := target, getSequence := 4 },
    mTxnAccountID := 7, mTxnAccount := sampleAPI.account 7, mPriorBalance := prior }

/-- A base transactor that accepts every transaction in `preCheck`, and whose
`apply` reports the code 99 and leaves the view alone. -/
def sampleTransactor : Transactor (List (Key × Key)) :=
  { preCheck := fun _ => TER.tesSUCCESS, apply := fun _ _ view => some (TER.other 99, view) }

/-- The ticket that account 7 creates with expiration 1001 and target 9. -/
def sampleCreatedTicket : SLE :=
  { SLE.make .ltTICKET (sampleAPI.getTicketIndex 7 4) with
    sfAccount := some 7, sfSequence := some 4, sfExpiration := some 1001,
    sfTarget := some 9, sfOwnerNode := some 0 }

/-- The sample view once that ticket is created. -/
def sampleCreatedView : View (List (Key × Key)) :=
  { items := [sampleCreatedTicket, sampleAccount 7 3 340, sampleAccount 9 0 1000],
    dirs := [(sampleAPI.getOwnerDirIndex 7, sampleAPI.getTicketIndex 7 4)] }

/-! ## Properties of `mulRatio` -/

/-- The `int128_t` value `r` that `mulRatio` has computed when it reaches its
range test, for a non-zero denominator. -/
def mulRatio_r (drops : Int) (num den : Nat) (roundUp : Bool) : Int :=
  let neg : Bool := decide (drops < 0)
  let m : Int := drops * (num : Int)
  let r0 : Int := m.tdiv (den : Int)
  if m.tmod (den : Int) ≠ 0 then
    let r1 := if (!neg && roundUp) = true then r0 + 1 else r0
    if (neg && !roundUp) = true then r1 - 1 else r1
  else r0

theorem mulRatio_unfold (cv : Int128Conversion) (amt : XRPAmount) (num den : Nat)
    (roundUp : Bool) (hden : den ≠ 0) :
    mulRatio cv amt num den roundUp =
      if mulRatio_r amt.drops num den roundUp > INT64_MAX then
        .error (.overflow_error "RMC mulRatio overflow")
      else
        .ok ⟨cv.convert_to (mulRatio_r amt.drops num den roundUp),
          cv.range (mulRatio_r amt.drops num den roundUp)⟩ := by
  unfold mulRatio
  rw [if_neg hden]
  rfl

/-- A returned amount holds `r` exactly as soon as `r` is not below the least
`std::int64_t`. -/
theorem mulRatio_ok_drops (cv : Int128Conversion) (amt : XRPAmount) (num den : Nat)
    (roundUp : Bool) (hden : den ≠ 0) (v : XRPAmount)
    (hmin : INT64_MIN ≤ mulRatio_r amt.drops num den roundUp)
    (hv : mulRatio cv amt num den roundUp = .ok v) :
    v.drops = mulRatio_r amt.drops num den roundUp := by
  rw [mulRatio_unfold cv amt num den roundUp hden] at hv
  split_ifs at hv with hgt
  injection hv with hv
  rw [← hv]
  exact cv.exact _ ⟨hmin, not_lt.mp hgt⟩

/-- Above the greatest `std::int64_t` the overflow is reported. -/
theorem mulRatio_overflow_above (cv : Int128Conversion) (amt : XRPAmount) (num den : Nat)
    (roundUp : Bool) (hden : den ≠ 0)
    (hmax : INT64_MAX < mulRatio_r amt.drops num den roundUp) :
    mulRatio cv amt num den roundUp = .error (.overflow_error "RMC mulRatio overflow") := by
  rw [mulRatio_unfold cv amt num den roundUp hden, if_pos hmax]

/-- Within the `std::int64_t` range the result is returned exactly. -/
theorem mulRatio_ok_in_range (cv : Int128Conversion) (amt : XRPAmount) (num den : Nat)
    (roundUp : Bool) (hden : den ≠ 0)
    (hr : isInt64 (mulRatio_r amt.drops num den roundUp)) :
    mulRatio cv amt num den roundUp = .ok ⟨mulRatio_r amt.drops num den roundUp, hr⟩ := by
  rw [mulRatio_unfold cv amt num den roundUp hden, if_neg (not_lt.mpr hr.2)]
  congr 1
  exact XRPAmount.ext (cv.exact _ hr)

/-- Below the least `std::int64_t` nothing is reported: an amount is returned. -/
theorem mulRatio_ok_below (cv : Int128Conversion) (amt : XRPAmount) (num den : Nat)
    (roundUp : Bool) (hden : den ≠ 0)
    (hmin : mulRatio_r amt.drops num den roundUp < INT64_MIN) :
    mulRatio cv amt num den roundUp =
      .ok ⟨cv.convert_to (mulRatio_r amt.drops num den roundUp),
        cv.range (mulRatio_r amt.drops num den roundUp)⟩ := by
  rw [mulRatio_unfold cv amt num den roundUp hden, if_neg]
  unfold INT64_MIN at hmin
  unfold INT64_MAX
  omega

theorem mulRatio_r_nonneg (drops : Int) (num den : Nat) (roundUp : Bool) (h : 0 ≤ drops) :
    mulRatio_r drops num den roundUp =
      (drops * (num : Int)).tdiv (den : Int) +
        (if (drops * (num : Int)).tmod (den : Int) ≠ 0 ∧ roundUp = true then 1 else 0) := by
  have hneg : decide (drops < 0) = false := by simpa using h
  unfold mulRatio_r
  simp only [hneg]
  cases roundUp
  · simp
  · simp only [Bool.not_false, Bool.and_self, if_true, Bool.false_and, Bool.false_eq_true,
      if_false, and_true]
    split_ifs <;> simp_all


/-! ## Claims on the amount type -/

/-- C1 (fails on the code): at an amount of -2^63 drops, numerator 2 and
denominator 1 the remainder is zero and the truncated quotient is -2^64, yet
`mulRatio` returns an amount, for either rounding flag and whatever the
narrowing does out of range, and the drops of that amount are not the
quotient. -/
theorem mulRatio_returns_other_than_quotient (cv : Int128Conversion) (roundUp : Bool) :
    (INT64_MIN * ((2 : Nat) : Int)).tmod ((1 : Nat) : Int) = 0 ∧
    ∃ v : XRPAmount, mulRatio cv ⟨INT64_MIN, by decide⟩ 2 1 roundUp = .ok v ∧
      v.drops ≠ (INT64_MIN * ((2 : Nat) : Int)).tdiv ((1 : Nat) : Int) := by
  have hr : mulRatio_r INT64_MIN 2 1 roundUp = -(2 ^ 64) := by
    cases roundUp <;> decide
  refine ⟨by decide, _, mulRatio_ok_below cv ⟨INT64_MIN, by decide⟩ 2 1 roundUp (by decide) ?_, ?_⟩
  · show mulRatio_r INT64_MIN 2 1 roundUp < INT64_MIN
    rw [hr]
    decide
  · show cv.convert_to (mulRatio_r INT64_MIN 2 1 roundUp) ≠ _
    have h := (cv.range (mulRatio_r INT64_MIN 2 1 roundUp)).1
    intro e
    rw [e] at h
    revert h
    decide

/-- C2 (fails on the code): at an amount of -(2^63 - 1) drops, numerator 3,
denominator 2 and rounding down, the corrected result (truncated quotient minus
one, the remainder being non-zero) lies below -2^63, and `mulRatio` does not fail
with the overflow condition: it returns an amount. -/
theorem mulRatio_reports_no_overflow_below_min (cv : Int128Conversion) :
    (-(2 ^ 63 - 1) * ((3 : Nat) : Int)).tmod ((2 : Nat) : Int) ≠ 0 ∧
    (-(2 ^ 63 - 1) * ((3 : Nat) : Int)).tdiv ((2 : Nat) : Int) - 1 < INT64_MIN ∧
    ∃ v : XRPAmount, mulRatio cv ⟨-(2 ^ 63 - 1), by decide⟩ 3 2 false = .ok v := by
  refine ⟨by decide, by decide, _,
    mulRatio_ok_below cv ⟨-(2 ^ 63 - 1), by decide⟩ 3 2 false (by decide) ?_⟩
  decide

/-- C3: with a zero denominator `mulRatio` fails with the division-by-zero
condition, for every amount, numerator, rounding flag and narrowing; it neither
returns an amount nor reports an overflow. -/
theorem mulRatio_zero_denominator (cv : Int128Conversion) (x : XRPAmount) (n : Nat)
    (roundUp : Bool) :
    mulRatio cv x n 0 roundUp = .error (.runtime_error "division by zero") ∧
    (∀ v : XRPAmount, mulRatio cv x n 0 roundUp ≠ .ok v) ∧
    (∀ what : String, mulRatio cv x n 0 roundUp ≠ .error (.overflow_error what)) := by
  have h : mulRatio cv x n 0 roundUp = .error (.runtime_error "division by zero") := by
    unfold mulRatio
    rw [if_pos rfl]
  refine ⟨h, ?_, ?_⟩
  · intro v e
    rw [h] at e
    cases e
  · intro what e
    rw [h] at e
    cases e

/-- C4: for a non-negative amount, a 32-bit numerator and a non-zero 32-bit
denominator for which both roundings return an amount, the rounded-up drops are
at least the rounded-down drops, they differ by at most 1, and they differ by
exactly 1 iff the denominator does not divide the product. -/
theorem mulRatio_roundUp_ge_roundDown (cv : Int128Conversion) (a : XRPAmount) (n d : Nat)
    (up down : XRPAmount) (ha : 0 ≤ a.drops) (_hn : isUInt32 n) (_hd : isUInt32 d) (hd0 : d ≠ 0)
    (hup : mulRatio cv a n d true = .ok up) (hdown : mulRatio cv a n d false = .ok down) :
    up.drops ≥ down.drops ∧ up.drops - down.drops ≤ 1 ∧
    (up.drops - down.drops = 1 ↔ ¬ ((d : Int) ∣ a.drops * (n : Int))) := by
  have hq : 0 ≤ (a.drops * (n : Int)).tdiv (d : Int) :=
    Int.tdiv_nonneg (Int.mul_nonneg ha (Int.ofNat_nonneg n)) (Int.ofNat_nonneg d)
  have hmin : ∀ b, INT64_MIN ≤ mulRatio_r a.drops n d b := by
    intro b
    rw [mulRatio_r_nonneg a.drops n d b ha]
    unfold INT64_MIN
    split_ifs <;> omega
  have e1 := mulRatio_ok_drops cv a n d true hd0 up (hmin true) hup
  have e2 := mulRatio_ok_drops cv a n d false hd0 down (hmin false) hdown
  rw [mulRatio_r_nonneg a.drops n d _ ha] at e1 e2
  rw [e1, e2, Int.dvd_iff_tmod_eq_zero]
  by_cases hrem : (a.drops * (n : Int)).tmod (d : Int) = 0
  · simp [hrem]
  · simp [hrem]

/-- Witness for C4: 100 drops times 1/3 gives 34 rounded up and 33 rounded down. -/
theorem mulRatio_roundUp_ge_roundDown_witness :
    (⟨34, by decide⟩ : XRPAmount).drops ≥ (⟨33, by decide⟩ : XRPAmount).drops ∧
    (⟨34, by decide⟩ : XRPAmount).drops - (⟨33, by decide⟩ : XRPAmount).drops ≤ 1 ∧
    ((⟨34, by decide⟩ : XRPAmount).drops - (⟨33, by decide⟩ : XRPAmount).drops = 1 ↔
      ¬ (((3 : Nat) : Int) ∣ (⟨100, by decide⟩ : XRPAmount).drops * ((1 : Nat) : Int))) :=
  mulRatio_roundUp_ge_roundDown truncatingConversion ⟨100, by decide⟩ 1 3
    ⟨34, by decide⟩ ⟨33, by decide⟩ (by decide) (by decide) (by decide) (by decide)
    (by decide) (by decide)

/-- C5: `isLegalAmount` is true exactly for the amounts of at most 10,757,000,000
drops, which is 10757 times 1,000,000; so it is true at 10757000000 drops, false
at 10757000001 drops, and true for every negative amount. -/
theorem isLegalAmount_iff :
    (∀ a : XRPAmount, isLegalAmount a = true ↔ a.drops ≤ 10757000000) ∧
    (wrapInt64 (SYSTEM_CURRENCY_START : Int) = 10757000000 ∧
      SYSTEM_CURRENCY_COINS = 10757 ∧ SYSTEM_CURRENCY_PARTS = 1000000 ∧
      SYSTEM_CURRENCY_START = SYSTEM_CURRENCY_COINS * SYSTEM_CURRENCY_PARTS) ∧
    isLegalAmount ⟨10757000000, by decide⟩ = true ∧
    isLegalAmount ⟨10757000001, by decide⟩ = false ∧
    (∀ a : XRPAmount, a.drops < 0 → isLegalAmount a = true) := by
  have hs : wrapInt64 (SYSTEM_CURRENCY_START : Int) = 10757000000 := by decide
  refine ⟨?_, ⟨hs, rfl, rfl, by decide⟩, by decide, by decide, ?_⟩
  · intro a
    unfold isLegalAmount
    rw [hs, decide_eq_true_iff]
  · intro a h
    unfold isLegalAmount
    rw [hs, decide_eq_true_iff]
    omega

/-! ## The view operations -/

theorem peek_cons {D : Type} (view : View D) (sle : SLE) (key : Key) :
    View.peek { view with items := sle :: view.items } key =
      if sle.index = key then some sle else view.peek key := by
  unfold View.peek
  by_cases h : sle.index = key
  · simp [List.find?_cons, h]
  · simp [List.find?_cons, h]

theorem insert_of_fresh {D : Type} (view : View D) (sle : SLE)
    (h : view.peek sle.index = none) :
    view.insert sle = some { view with items := sle :: view.items } := by
  unfold View.insert
  simp [h]

theorem insert_of_present {D : Type} (view : View D) (sle : SLE)
    (h : (view.peek sle.index).isSome = true) : view.insert sle = none := by
  unfold View.insert
  simp [h]

theorem modifyFirst_cons_self (key : Key) (f : SLE → SLE) (sle : SLE) (rest : List SLE)
    (h : sle.index = key) : modifyFirst key f (sle :: rest) = f sle :: rest := by
  simp [modifyFirst, h]

theorem modifyFirst_cons_ne (key : Key) (f : SLE → SLE) (sle : SLE) (rest : List SLE)
    (h : sle.index ≠ key) :
    modifyFirst key f (sle :: rest) = sle :: modifyFirst key f rest := by
  simp [modifyFirst, h]

theorem find_modifyFirst_self (key : Key) (f : SLE → SLE) (hf : ∀ s, (f s).index = s.index)
    (items : List SLE) :
    (modifyFirst key f items).find? (fun sle => decide (sle.index = key)) =
      (items.find? (fun sle => decide (sle.index = key))).map f := by
  induction items with
  | nil => rfl
  | cons s rest ih =>
    by_cases h : s.index = key
    · rw [modifyFirst_cons_self key f s rest h]
      simp [List.find?_cons, h, hf]
    · rw [modifyFirst_cons_ne key f s rest h]
      simp [List.find?_cons, h, ih]

theorem find_modifyFirst_ne (key other : Key) (f : SLE → SLE)
    (hf : ∀ s, (f s).index = s.index) (hne : other ≠ key) (items : List SLE) :
    (modifyFirst key f items).find? (fun sle => decide (sle.index = other)) =
      items.find? (fun sle => decide (sle.index = other)) := by
  induction items with
  | nil => rfl
  | cons s rest ih =>
    by_cases h : s.index = key
    · rw [modifyFirst_cons_self key f s rest h]
      have h1 : ¬ s.index = other := fun e => hne (e.symm.trans h)
      simp [List.find?_cons, h1, hf]
    · rw [modifyFirst_cons_ne key f s rest h]
      by_cases h2 : s.index = other
      · simp [List.find?_cons, h2]
      · simp [List.find?_cons, h2, ih]

/-- What `adjustOwnerCount` leaves under the account key. -/
theorem peek_adjustOwnerCount_self {D : Type} (view : View D) (account : Key) (amount : Int) :
    (adjustOwnerCount view account amount).peek account =
      (view.peek account).map (fun sle =>
        { sle with sfOwnerCount := some (((getFieldU32 sle.sfOwnerCount : Int) + amount).toNat) }) := by
  unfold adjustOwnerCount View.modify View.peek
  dsimp only
  apply find_modifyFirst_self
  intro s
  rfl

/-- The function `adjustOwnerCount` leaves every other entry as it was. -/
theorem peek_adjustOwnerCount_ne {D : Type} (view : View D) (account other : Key)
    (amount : Int) (hne : other ≠ account) :
    (adjustOwnerCount view account amount).peek other = view.peek other := by
  unfold adjustOwnerCount View.modify View.peek
  dsimp only
  apply find_modifyFirst_ne
  · intro s
    rfl
  · exact hne

theorem dirs_adjustOwnerCount {D : Type} (view : View D) (account : Key) (amount : Int) :
    (adjustOwnerCount view account amount).dirs = view.dirs := rfl

/-! ## The steps of `doApply` -/

theorem newTicket_index {D : Type} (api : ViewAPI D) (self : CreateTicket) (expiration : Nat) :
    (CreateTicket.newTicket api self expiration).index =
      api.getTicketIndex self.mTxnAccountID self.mTxn.getSequence := by
  unfold CreateTicket.newTicket SLE.make
  split_ifs <;> rfl

/-- The first exit of `doApply`: the reserve test of lines 76 and 77. -/
theorem doApply_reserve_exit {D : Type} (ledger : Ledger) (api : ViewAPI D)
    (self : CreateTicket) (view : View D) (account : SLE)
    (hacct : view.peek self.mTxnAccount = some account)
    (hres : self.mPriorBalance < CreateTicket.getAccountReserve ledger account) :
    CreateTicket.doApply ledger api self view = some (TER.tecINSUFFICIENT_RESERVE, view) := by
  unfold CreateTicket.doApply
  simp only [hacct]
  rw [if_pos hres]

/-- The second exit of `doApply`: the expiration test of lines 81 to 87. -/
theorem doApply_expired_exit {D : Type} (ledger : Ledger) (api : ViewAPI D)
    (self : CreateTicket) (view : View D) (account : SLE)
    (hacct : view.peek self.mTxnAccount = some account)
    (hres : ¬ self.mPriorBalance < CreateTicket.getAccountReserve ledger account)
    (hexp : self.mTxn.sfExpiration.isSome = true ∧
      ledger.getParentCloseTimeNC ≥ self.expiration) :
    CreateTicket.doApply ledger api self view = some (TER.tesSUCCESS, view) := by
  unfold CreateTicket.doApply
  simp only [hacct]
  rw [if_neg hres]
  unfold CreateTicket.expiration at hexp
  rw [if_pos hexp]

/-- Past the reserve test and the expiration test, `doApply` is the insertion
followed by the target and directory steps. -/
theorem doApply_past_checks {D : Type} (ledger : Ledger) (api : ViewAPI D)
    (self : CreateTicket) (view : View D) (account : SLE)
    (hacct : view.peek self.mTxnAccount = some account)
    (hres : ¬ self.mPriorBalance < CreateTicket.getAccountReserve ledger account)
    (hexp : ¬ (self.mTxn.sfExpiration.isSome = true ∧
      ledger.getParentCloseTimeNC ≥ self.expiration)) :
    CreateTicket.doApply ledger api self view =
      match view.insert (CreateTicket.newTicket api self self.expiration) with
      | none => none
      | some view =>
        match self.mTxn.sfTarget with
        | none => some (CreateTicket.addToOwnerDir api self
            (CreateTicket.newTicket api self self.expiration).index view)
        | some target_account =>
          match view.peek (api.account target_account) with
          | none => some (TER.tecNO_TARGET, view)
          | some _ =>
            if target_account ≠ self.mTxnAccountID then
              some (CreateTicket.addToOwnerDir api self
                (CreateTicket.newTicket api self self.expiration).index
                (view.modify (CreateTicket.newTicket api self self.expiration).index
                  (fun sle => { sle with sfTarget := some target_account })))
            else
              some (CreateTicket.addToOwnerDir api self
                (CreateTicket.newTicket api self self.expiration).index view) := by
  unfold CreateTicket.doApply
  simp only [hacct]
  rw [if_neg hres]
  unfold CreateTicket.expiration at hexp
  rw [if_neg hexp]
  rfl

theorem addToOwnerDir_success {D : Type} (api : ViewAPI D) (self : CreateTicket) (ticket : Key)
    (view : View D) (hint : Nat) (dirs : D)
    (hdir : api.dirAdd view.dirs (api.getOwnerDirIndex self.mTxnAccountID) ticket
      self.mTxnAccountID = (TER.tesSUCCESS, hint, dirs)) :
    CreateTicket.addToOwnerDir api self ticket view =
      (TER.tesSUCCESS,
        adjustOwnerCount
          (View.modify { view with dirs := dirs } ticket
            (fun sle => { sle with sfOwnerNode := some hint }))
          self.mTxnAccount 1) := by
  unfold CreateTicket.addToOwnerDir
  rw [hdir]
  simp

theorem addToOwnerDir_failure {D : Type} (api : ViewAPI D) (self : CreateTicket) (ticket : Key)
    (view : View D) (result : TER) (hint : Nat) (dirs : D)
    (hdir : api.dirAdd view.dirs (api.getOwnerDirIndex self.mTxnAccountID) ticket
      self.mTxnAccountID = (result, hint, dirs))
    (hne : result ≠ TER.tesSUCCESS) :
    CreateTicket.addToOwnerDir api self ticket view = (result, { view with dirs := dirs }) := by
  unfold CreateTicket.addToOwnerDir
  rw [hdir]
  simp [hne]

/-- The directory step on a view whose front entry is the ticket: on success the
ticket gets the hint, the account entry gets its owner count plus one, the
directories are those `dirAdd` left, and nothing else changes. -/
theorem addToOwnerDir_inserted {D : Type} (api : ViewAPI D) (self : CreateTicket)
    (view : View D) (ticket account : SLE) (hint : Nat) (dirs : D)
    (hacct : view.peek self.mTxnAccount = some account)
    (hne : ticket.index ≠ self.mTxnAccount)
    (hdir : api.dirAdd view.dirs (api.getOwnerDirIndex self.mTxnAccountID) ticket.index
      self.mTxnAccountID = (TER.tesSUCCESS, hint, dirs)) :
    ∃ view' : View D,
      CreateTicket.addToOwnerDir api self ticket.index
        { view with items := ticket :: view.items } = (TER.tesSUCCESS, view') ∧
      view'.peek ticket.index = some { ticket with sfOwnerNode := some hint } ∧
      view'.peek self.mTxnAccount =
        some { account with sfOwnerCount := some (getFieldU32 account.sfOwnerCount + 1) } ∧
      view'.dirs = dirs := by
  refine ⟨_, addToOwnerDir_success api self ticket.index _ hint dirs hdir, ?_, ?_, rfl⟩
  · rw [peek_adjustOwnerCount_ne _ _ _ _ hne]
    unfold View.modify View.peek
    dsimp only
    rw [modifyFirst_cons_self _ _ _ _ rfl]
    simp
  · rw [peek_adjustOwnerCount_self]
    have h1 : View.peek (View.modify
        { items := ticket :: view.items, dirs := dirs } ticket.index
        (fun sle => { sle with sfOwnerNode := some hint })) self.mTxnAccount = some account := by
      unfold View.modify View.peek
      dsimp only
      rw [modifyFirst_cons_self _ _ _ _ rfl]
      unfold View.peek at hacct
      simp [List.find?_cons, hne, hacct]
    rw [h1]
    simp only [Option.map_some']
    congr 3

/-- A write through the ticket pointer right after the insertion. -/
theorem modify_inserted {D : Type} (view : View D) (ticket : SLE) (f : SLE → SLE) :
    View.modify { view with items := ticket :: view.items } ticket.index f =
      { view with items := f ticket :: view.items } := by
  unfold View.modify
  dsimp only
  rw [modifyFirst_cons_self _ _ _ _ rfl]

/-- A ticket whose request is not expired carries the expiration of the request. -/
theorem newTicket_sfExpiration {D : Type} (ledger : Ledger) (api : ViewAPI D)
    (self : CreateTicket)
    (hexp : ∀ e, self.mTxn.sfExpiration = some e → ledger.getParentCloseTimeNC < e) :
    (CreateTicket.newTicket api self self.expiration).sfExpiration = self.mTxn.sfExpiration := by
  unfold CreateTicket.newTicket CreateTicket.expiration SLE.make
  cases h : self.mTxn.sfExpiration with
  | none => simp
  | some e =>
    have := hexp e h
    have he : e ≠ 0 := by omega
    simp [he]

theorem newTicket_fields {D : Type} (api : ViewAPI D) (self : CreateTicket) (expiration : Nat) :
    (CreateTicket.newTicket api self expiration).getType = LedgerEntryType.ltTICKET ∧
    (CreateTicket.newTicket api self expiration).sfAccount = some self.mTxnAccountID ∧
    (CreateTicket.newTicket api self expiration).sfSequence = some self.mTxn.getSequence ∧
    (CreateTicket.newTicket api self expiration).sfTarget = none ∧
    (CreateTicket.newTicket api self expiration).sfOwnerNode = none := by
  unfold CreateTicket.newTicket SLE.make
  split_ifs <;> simp

theorem not_expired (ledger : Ledger) (self : CreateTicket)
    (hexp : ∀ e, self.mTxn.sfExpiration = some e → ledger.getParentCloseTimeNC < e) :
    ¬ (self.mTxn.sfExpiration.isSome = true ∧
      ledger.getParentCloseTimeNC ≥ self.expiration) := by
  unfold CreateTicket.expiration
  cases h : self.mTxn.sfExpiration with
  | none => simp
  | some e =>
    have := hexp e h
    simp
    omega

/-! ## Claims on `CreateTicket::doApply` -/

/-- C6: when the prior balance is strictly below the reserve for the owner count
plus one (the 32-bit sum the code forms), `doApply` returns
tecINSUFFICIENT_RESERVE and the view it leaves is the view it was given: no
ticket, no directory change, the same owner count.  The expiration and target of
the transaction and the balance field of the account are arbitrary. -/
theorem doApply_insufficient_reserve {D : Type} (ledger : Ledger) (api : ViewAPI D)
    (self : CreateTicket) (view : View D) (account : SLE)
    (hacct : view.peek self.mTxnAccount = some account)
    (hres : self.mPriorBalance <
      ((ledger.getReserve ((getFieldU32 account.sfOwnerCount + 1) % 2 ^ 32) : Nat) : Int)) :
    CreateTicket.doApply ledger api self view = some (TER.tecINSUFFICIENT_RESERVE, view) := by
  unfold CreateTicket.doApply
  simp only [hacct]
  rw [if_pos]
  exact hres

/-- Witness for C6: owner count 2, reserve 350 for three objects, prior balance
349, with an unexpired expiration and a target that does not exist. -/
theorem doApply_insufficient_reserve_witness :
    sampleView.peek (sampleTicketTx (some 1001) (some 8) 349).mTxnAccount =
      some (sampleAccount 7 2 340) ∧
    (sampleTicketTx (some 1001) (some 8) 349).mPriorBalance <
      ((sampleLedger.getReserve ((getFieldU32 (sampleAccount 7 2 340).sfOwnerCount + 1) % 2 ^ 32)
        : Nat) : Int) ∧
    CreateTicket.doApply sampleLedger sampleAPI (sampleTicketTx (some 1001) (some 8) 349)
      sampleView = some (TER.tecINSUFFICIENT_RESERVE, sampleView) :=
  ⟨by decide, by decide,
    doApply_insufficient_reserve sampleLedger sampleAPI (sampleTicketTx (some 1001) (some 8) 349)
      sampleView (sampleAccount 7 2 340) (by decide) (by decide)⟩

/-- C7: when the prior balance is at least the reserve for the owner count plus
one, the transaction has no expiration or one after the parent close time, has
no target or one whose account entry exists, the ticket index is free so that the
insertion goes through, and `dirAdd` returns tesSUCCESS with hint `hint`, then
`doApply` returns tesSUCCESS and leaves a view that holds, under
`getTicketIndex (owner, sequence)`, a ticket with the owner as account, the
transaction sequence, the expiration of the transaction (present iff the
transaction has one), and `hint` as owner node; the owner count of the account
entry is one more than before and the directories are those `dirAdd` left. -/
theorem doApply_creates_ticket {D : Type} (ledger : Ledger) (api : ViewAPI D)
    (self : CreateTicket) (view : View D) (account : SLE) (hint : Nat) (dirs : D)
    (hacct : view.peek self.mTxnAccount = some account)
    (hres : ((ledger.getReserve ((getFieldU32 account.sfOwnerCount + 1) % 2 ^ 32) : Nat) : Int)
      ≤ self.mPriorBalance)
    (hexp : ∀ e, self.mTxn.sfExpiration = some e → ledger.getParentCloseTimeNC < e)
    (htgt : ∀ t, self.mTxn.sfTarget = some t → (view.peek (api.account t)).isSome = true)
    (hfresh : view.peek (api.getTicketIndex self.mTxnAccountID self.mTxn.getSequence) = none)
    (hdir : api.dirAdd view.dirs (api.getOwnerDirIndex self.mTxnAccountID)
      (api.getTicketIndex self.mTxnAccountID self.mTxn.getSequence) self.mTxnAccountID =
        (TER.tesSUCCESS, hint, dirs)) :
    ∃ (view' : View D) (ticket : SLE),
      CreateTicket.doApply ledger api self view = some (TER.tesSUCCESS, view') ∧
      view'.peek (api.getTicketIndex self.mTxnAccountID self.mTxn.getSequence) = some ticket ∧
      ticket.getType = LedgerEntryType.ltTICKET ∧
      ticket.sfAccount = some self.mTxnAccountID ∧
      ticket.sfSequence = some self.mTxn.getSequence ∧
      ticket.sfExpiration = self.mTxn.sfExpiration ∧
      ticket.sfOwnerNode = some hint ∧
      view'.peek self.mTxnAccount =
        some { account with sfOwnerCount := some (getFieldU32 account.sfOwnerCount + 1) } ∧
      view'.dirs = dirs := by
  have hidx := newTicket_index api self self.expiration
  have hfld := newTicket_fields api self self.expiration
  have hexpf := newTicket_sfExpiration ledger api self hexp
  have hne : (CreateTicket.newTicket api self self.expiration).index ≠ self.mTxnAccount := by
    intro e
    rw [hidx] at e
    rw [e, hacct] at hfresh
    cases hfresh
  rw [doApply_past_checks ledger api self view account hacct (not_lt.mpr hres)
    (not_expired ledger self hexp)]
  rw [insert_of_fresh view _ (by rw [hidx]; exact hfresh)]
  rw [← hidx] at hdir ⊢
  cases hT : self.mTxn.sfTarget with
  | none =>
    obtain ⟨view', h1, h2, h3, h4⟩ := addToOwnerDir_inserted api self view
      (CreateTicket.newTicket api self self.expiration) account hint dirs hacct hne hdir
    refine ⟨view', _, ?_, h2, ?_, ?_, ?_, ?_, rfl, h3, h4⟩
    · simp only [h1]
    · exact hfld.1
    · exact hfld.2.1
    · exact hfld.2.2.1
    · exact hexpf
  | some t =>
    have hsome := htgt t hT
    have hpeek : (View.peek { view with items :=
        (CreateTicket.newTicket api self self.expiration) :: view.items }
        (api.account t)).isSome = true := by
      rw [peek_cons]
      split_ifs
      · rfl
      · exact hsome
    obtain ⟨found, hfound⟩ := Option.isSome_iff_exists.mp hpeek
    simp only [hfound]
    by_cases hself : t = self.mTxnAccountID
    · rw [if_neg (not_not.mpr hself)]
      obtain ⟨view', h1, h2, h3, h4⟩ := addToOwnerDir_inserted api self view
        (CreateTicket.newTicket api self self.expiration) account hint dirs hacct hne hdir
      refine ⟨view', _, ?_, h2, ?_, ?_, ?_, ?_, rfl, h3, h4⟩
      · simp only [h1]
      · exact hfld.1
      · exact hfld.2.1
      · exact hfld.2.2.1
      · exact hexpf
    · rw [if_pos hself, modify_inserted]
      obtain ⟨view', h1, h2, h3, h4⟩ := addToOwnerDir_inserted api self view
        { (CreateTicket.newTicket api self self.expiration) with sfTarget := some t }
        account hint dirs hacct hne hdir
      refine ⟨view', _, ?_, h2, ?_, ?_, ?_, ?_, rfl, h3, h4⟩
      · exact congrArg some h1
      · exact hfld.1
      · exact hfld.2.1
      · exact hfld.2.2.1
      · exact hexpf

/-- Witness for C7: prior balance 350, exactly the reserve for three objects; an
expiration after the close time and the existing account 9 as target. -/
theorem doApply_creates_ticket_witness :
    sampleView.peek (sampleTicketTx (some 1001) (some 9) 350).mTxnAccount =
      some (sampleAccount 7 2 340) ∧
    ((sampleLedger.getReserve ((getFieldU32 (sampleAccount 7 2 340).sfOwnerCount + 1) % 2 ^ 32)
      : Nat) : Int) ≤ (sampleTicketTx (some 1001) (some 9) 350).mPriorBalance ∧
    ∃ (view' : View (List (Key × Key))) (ticket : SLE),
      CreateTicket.doApply sampleLedger sampleAPI (sampleTicketTx (some 1001) (some 9) 350)
        sampleView = some (TER.tesSUCCESS, view') ∧
      view'.peek (sampleAPI.getTicketIndex 7 4) = some ticket ∧
      ticket.getType = LedgerEntryType.ltTICKET ∧
      ticket.sfAccount = some 7 ∧
      ticket.sfSequence = some 4 ∧
      ticket.sfExpiration = some 1001 ∧
      ticket.sfOwnerNode = some 0 ∧
      view'.peek (sampleAPI.account 7) =
        some { sampleAccount 7 2 340 with sfOwnerCount := some 3 } ∧
      view'.dirs = [(sampleAPI.getOwnerDirIndex 7, sampleAPI.getTicketIndex 7 4)] :=
  ⟨by decide, by decide,
    doApply_creates_ticket sampleLedger sampleAPI (sampleTicketTx (some 1001) (some 9) 350)
      sampleView (sampleAccount 7 2 340) 0
      [(sampleAPI.getOwnerDirIndex 7, sampleAPI.getTicketIndex 7 4)]
      (by decide) (by decide) (by decide) (by decide) (by decide) (by decide)⟩

/-- C8 (as stated, fails on the code): account 8 has no entry in the sample view,
the request of account 7 names it as target, and `doApply` returns tecNO_TARGET
with a view that is not the view it was given: the ticket index was free before
the call and holds the new ticket after it. -/
theorem doApply_no_target_keeps_ticket :
    (sampleTicketTx (some 1001) (some 8) 350).mTxn.sfTarget = some 8 ∧
    sampleView.peek (sampleAPI.account 8) = none ∧
    sampleView.peek (sampleAPI.getTicketIndex 7 4) = none ∧
    ∃ view' : View (List (Key × Key)),
      CreateTicket.doApply sampleLedger sampleAPI (sampleTicketTx (some 1001) (some 8) 350)
        sampleView = some (TER.tecNO_TARGET, view') ∧
      view' ≠ sampleView ∧
      (view'.peek (sampleAPI.getTicketIndex 7 4)).isSome = true :=
  ⟨by decide, by decide, by decide,
    { sampleView with items :=
      (CreateTicket.newTicket sampleAPI (sampleTicketTx (some 1001) (some 8) 350) 1001)
        :: sampleView.items },
    by decide, by decide, by decide⟩

/-- C8 (amended): for a request that passes the reserve test, is not expired,
whose ticket index is free and is not the account key of the target, and that
names a target with no account entry in the view, `doApply` returns tecNO_TARGET;
the view it leaves is the view it was given with the new ticket in front (account,
sequence and expiration set, no target, no owner node), so the directories and
every entry the view had, the owner count of the account included, are as
before. -/
theorem doApply_no_target {D : Type} (ledger : Ledger) (api : ViewAPI D)
    (self : CreateTicket) (view : View D) (account : SLE) (target : AccountID)
    (hacct : view.peek self.mTxnAccount = some account)
    (hres : ((ledger.getReserve ((getFieldU32 account.sfOwnerCount + 1) % 2 ^ 32) : Nat) : Int)
      ≤ self.mPriorBalance)
    (hexp : ∀ e, self.mTxn.sfExpiration = some e → ledger.getParentCloseTimeNC < e)
    (hfresh : view.peek (api.getTicketIndex self.mTxnAccountID self.mTxn.getSequence) = none)
    (htgt : self.mTxn.sfTarget = some target)
    (habsent : view.peek (api.account target) = none)
    (hkey : api.getTicketIndex self.mTxnAccountID self.mTxn.getSequence ≠ api.account target) :
    CreateTicket.doApply ledger api self view =
      some (TER.tecNO_TARGET,
        { view with items := (CreateTicket.newTicket api self self.expiration) :: view.items }) ∧
    View.peek { view with items := (CreateTicket.newTicket api self self.expiration) :: view.items }
      self.mTxnAccount = some account ∧
    (CreateTicket.newTicket api self self.expiration).sfAccount = some self.mTxnAccountID ∧
    (CreateTicket.newTicket api self self.expiration).sfSequence = some self.mTxn.getSequence ∧
    (CreateTicket.newTicket api self self.expiration).sfExpiration = self.mTxn.sfExpiration ∧
    (CreateTicket.newTicket api self self.expiration).sfTarget = none ∧
    (CreateTicket.newTicket api self self.expiration).sfOwnerNode = none := by
  have hidx := newTicket_index api self self.expiration
  have hfld := newTicket_fields api self self.expiration
  have hne : (CreateTicket.newTicket api self self.expiration).index ≠ self.mTxnAccount := by
    intro e
    rw [hidx] at e
    rw [e, hacct] at hfresh
    cases hfresh
  refine ⟨?_, ?_, hfld.2.1, hfld.2.2.1, newTicket_sfExpiration ledger api self hexp,
    hfld.2.2.2.1, hfld.2.2.2.2⟩
  · rw [doApply_past_checks ledger api self view account hacct (not_lt.mpr hres)
      (not_expired ledger self hexp)]
    rw [insert_of_fresh view _ (by rw [hidx]; exact hfresh)]
    have hpeek : View.peek { view with items :=
        (CreateTicket.newTicket api self self.expiration) :: view.items }
        (api.account target) = none := by
      rw [peek_cons, hidx, if_neg hkey]
      exact habsent
    simp only [htgt, hpeek]
  · rw [peek_cons, if_neg hne]
    exact hacct

/-- Witness for C8 (amended): the request of account 7 that names the missing
account 8. -/
theorem doApply_no_target_witness :
    sampleView.peek (sampleAPI.account 8) = none ∧
    CreateTicket.doApply sampleLedger sampleAPI (sampleTicketTx (some 1001) (some 8) 350)
      sampleView =
      some (TER.tecNO_TARGET,
        { sampleView with items :=
          (CreateTicket.newTicket sampleAPI (sampleTicketTx (some 1001) (some 8) 350)
            (sampleTicketTx (some 1001) (some 8) 350).expiration) :: sampleView.items }) :=
  ⟨by decide,
    (doApply_no_target sampleLedger sampleAPI (sampleTicketTx (some 1001) (some 8) 350)
      sampleView (sampleAccount 7 2 340) 8
      (by decide) (by decide) (by decide) (by decide) (by decide) (by decide) (by decide)).1⟩

/-- C9 (as stated, fails on the code): the request carries the expiration 1000,
which is not after the parent close time 1000, but the prior balance 349 is below
the reserve 350, and `doApply` returns tecINSUFFICIENT_RESERVE, not tesSUCCESS. -/
theorem doApply_expired_below_reserve :
    (sampleTicketTx (some 1000) none 349).mTxn.sfExpiration = some 1000 ∧
    1000 ≤ sampleLedger.getParentCloseTimeNC ∧
    CreateTicket.doApply sampleLedger sampleAPI (sampleTicketTx (some 1000) none 349) sampleView =
      some (TER.tecINSUFFICIENT_RESERVE, sampleView) ∧
    CreateTicket.doApply sampleLedger sampleAPI (sampleTicketTx (some 1000) none 349) sampleView ≠
      some (TER.tesSUCCESS, sampleView) :=
  ⟨by decide, by decide, by decide, by decide⟩

/-- C9 (amended): for a request that passes the reserve test and whose
expiration is present and not after the parent close time, `doApply` returns
tesSUCCESS and leaves the view it was given: no ticket, the same directories,
the same owner count. -/
theorem doApply_expired_noop {D : Type} (ledger : Ledger) (api : ViewAPI D)
    (self : CreateTicket) (view : View D) (account : SLE) (e : Nat)
    (hacct : view.peek self.mTxnAccount = some account)
    (hres : ((ledger.getReserve ((getFieldU32 account.sfOwnerCount + 1) % 2 ^ 32) : Nat) : Int)
      ≤ self.mPriorBalance)
    (hE : self.mTxn.sfExpiration = some e)
    (hle : e ≤ ledger.getParentCloseTimeNC) :
    CreateTicket.doApply ledger api self view = some (TER.tesSUCCESS, view) := by
  have hres' : ¬ self.mPriorBalance < CreateTicket.getAccountReserve ledger account :=
    not_lt.mpr hres
  unfold CreateTicket.doApply
  simp only [hacct]
  rw [if_neg hres']
  simp only [hE]
  rw [if_pos]
  exact ⟨rfl, hle⟩

/-- Witness for C9 (amended): expiration 1000 at parent close time 1000, prior
balance 350. -/
theorem doApply_expired_noop_witness :
    (sampleTicketTx (some 1000) (some 8) 350).mTxn.sfExpiration = some 1000 ∧
    1000 ≤ sampleLedger.getParentCloseTimeNC ∧
    CreateTicket.doApply sampleLedger sampleAPI (sampleTicketTx (some 1000) (some 8) 350)
      sampleView = some (TER.tesSUCCESS, sampleView) :=
  ⟨by decide, by decide,
    doApply_expired_noop sampleLedger sampleAPI (sampleTicketTx (some 1000) (some 8) 350)
      sampleView (sampleAccount 7 2 340) 1000 (by decide) (by decide) (by decide) (by decide)⟩

/-- Once the reserve and expiration tests are passed and the ticket index is
free, a request that names the owner itself, whose account entry exists, runs
the directory step on the view with the new ticket in front, as a request
without target does. -/
theorem doApply_self_target_steps {D : Type} (ledger : Ledger) (api : ViewAPI D)
    (self : CreateTicket) (view : View D) (account : SLE)
    (howner : (view.peek (api.account self.mTxnAccountID)).isSome = true)
    (htgt : self.mTxn.sfTarget = some self.mTxnAccountID ∨ self.mTxn.sfTarget = none)
    (hacct : view.peek self.mTxnAccount = some account)
    (hres : ¬ self.mPriorBalance < CreateTicket.getAccountReserve ledger account)
    (hexp : ¬ (self.mTxn.sfExpiration.isSome = true ∧
      ledger.getParentCloseTimeNC ≥ self.expiration))
    (hfresh : view.peek (CreateTicket.newTicket api self self.expiration).index = none) :
    CreateTicket.doApply ledger api self view =
      some (CreateTicket.addToOwnerDir api self
        (CreateTicket.newTicket api self self.expiration).index
        { view with items := (CreateTicket.newTicket api self self.expiration) :: view.items }) := by
  rw [doApply_past_checks ledger api self view account hacct hres hexp,
    insert_of_fresh view _ hfresh]
  rcases htgt with htgt | htgt
  · have hpeek : (View.peek { view with items :=
        (CreateTicket.newTicket api self self.expiration) :: view.items }
        (api.account self.mTxnAccountID)).isSome = true := by
      rw [peek_cons]
      split_ifs
      · rfl
      · exact howner
    obtain ⟨found, hfound⟩ := Option.isSome_iff_exists.mp hpeek
    simp only [htgt, hfound]
    rw [if_neg (not_not.mpr rfl)]
  · simp only [htgt]

/-- C10: in a view that holds the owner's own account entry, a request whose
target is the owner gives the same result code and the same final view as the
same request with the target field left out (both calls fail to return in the
same cases); and a ticket the call has put under a ticket index that was free
carries no target field. -/
theorem doApply_self_target {D : Type} (ledger : Ledger) (api : ViewAPI D)
    (self : CreateTicket) (view : View D)
    (howner : (view.peek (api.account self.mTxnAccountID)).isSome = true)
    (htgt : self.mTxn.sfTarget = some self.mTxnAccountID) :
    CreateTicket.doApply ledger api self view =
      CreateTicket.doApply ledger api self.withoutTarget view ∧
    ∀ (result : TER) (view' : View D) (ticket : SLE),
      CreateTicket.doApply ledger api self view = some (result, view') →
      view.peek (api.getTicketIndex self.mTxnAccountID self.mTxn.getSequence) = none →
      view'.peek (api.getTicketIndex self.mTxnAccountID self.mTxn.getSequence) = some ticket →
      ticket.sfTarget = none := by
  have hidx := newTicket_index api self self.expiration
  have hfld := newTicket_fields api self self.expiration
  cases hacct : view.peek self.mTxnAccount with
  | none =>
    have h1 : CreateTicket.doApply ledger api self view = none := by
      unfold CreateTicket.doApply
      simp only [hacct]
    have h2 : CreateTicket.doApply ledger api self.withoutTarget view = none := by
      unfold CreateTicket.doApply CreateTicket.withoutTarget
      simp only [hacct]
    refine ⟨h1.trans h2.symm, ?_⟩
    intro result view' ticket h
    rw [h1] at h
    cases h
  | some account =>
    have hacct' : view.peek self.withoutTarget.mTxnAccount = some account := hacct
    by_cases hres : self.mPriorBalance < CreateTicket.getAccountReserve ledger account
    · have h1 := doApply_reserve_exit ledger api self view account hacct hres
      have h2 := doApply_reserve_exit ledger api self.withoutTarget view account hacct' hres
      refine ⟨h1.trans h2.symm, ?_⟩
      intro result view' ticket h hfresh hpeek
      rw [h1] at h
      injection h with h
      injection h with _ h
      rw [← h, hfresh] at hpeek
      cases hpeek
    · by_cases hexp : self.mTxn.sfExpiration.isSome = true ∧
          ledger.getParentCloseTimeNC ≥ self.expiration
      · have h1 := doApply_expired_exit ledger api self view account hacct hres hexp
        have h2 := doApply_expired_exit ledger api self.withoutTarget view account hacct'
          hres hexp
        refine ⟨h1.trans h2.symm, ?_⟩
        intro result view' ticket h hfresh hpeek
        rw [h1] at h
        injection h with h
        injection h with _ h
        rw [← h, hfresh] at hpeek
        cases hpeek
      · by_cases hfresh : view.peek (CreateTicket.newTicket api self self.expiration).index = none
        · have h1 := doApply_self_target_steps ledger api self view account howner
            (Or.inl htgt) hacct hres hexp hfresh
          have h2 := doApply_self_target_steps ledger api self.withoutTarget view account howner
            (Or.inr rfl) hacct' hres hexp hfresh
          refine ⟨h1.trans h2.symm, ?_⟩
          intro result view' ticket h _ hpeek
          rw [h1] at h
          injection h with h
          have hne : (CreateTicket.newTicket api self self.expiration).index ≠
              self.mTxnAccount := by
            intro e
            rw [e, hacct] at hfresh
            cases hfresh
          rw [← hidx] at hpeek
          rcases hd : api.dirAdd view.dirs (api.getOwnerDirIndex self.mTxnAccountID)
            (CreateTicket.newTicket api self self.expiration).index self.mTxnAccountID
            with ⟨r, hint, dirs⟩
          by_cases hr : r = TER.tesSUCCESS
          · rw [hr] at hd
            obtain ⟨v2, e1, e2, _, _⟩ := addToOwnerDir_inserted api self view
              (CreateTicket.newTicket api self self.expiration) account hint dirs hacct hne hd
            rw [e1] at h
            injection h with _ h
            rw [← h, e2] at hpeek
            injection hpeek with hpeek
            rw [← hpeek]
            exact hfld.2.2.2.1
          · have hf := addToOwnerDir_failure api self
              (CreateTicket.newTicket api self self.expiration).index
              { view with items := (CreateTicket.newTicket api self self.expiration) :: view.items }
              r hint dirs hd hr
            rw [hf] at h
            injection h with _ h
            rw [← h] at hpeek
            have hp := peek_cons { view with dirs := dirs }
              (CreateTicket.newTicket api self self.expiration)
              (CreateTicket.newTicket api self self.expiration).index
            rw [if_pos rfl] at hp
            rw [hp] at hpeek
            injection hpeek with hpeek
            rw [← hpeek]
            exact hfld.2.2.2.1
        · have hpres : (view.peek (CreateTicket.newTicket api self self.expiration).index).isSome
              = true := by
            cases h : view.peek (CreateTicket.newTicket api self self.expiration).index with
            | none => exact absurd h hfresh
            | some _ => rfl
          have h1 : CreateTicket.doApply ledger api self view = none := by
            rw [doApply_past_checks ledger api self view account hacct hres hexp,
              insert_of_present view _ hpres]
          have h2 : CreateTicket.doApply ledger api self.withoutTarget view = none := by
            rw [doApply_past_checks ledger api self.withoutTarget view account hacct' hres hexp]
            exact (congrArg (fun o => match o with
              | none => none
              | some v => some (CreateTicket.addToOwnerDir api self.withoutTarget
                  (CreateTicket.newTicket api self self.expiration).index v))
              (insert_of_present view _ hpres)).trans rfl
          refine ⟨h1.trans h2.symm, ?_⟩
          intro result view' ticket h
          rw [h1] at h
          cases h

/-- Witness for C10: account 7 names itself as target; with and without the
target field the call succeeds with the same view, whose ticket has no target. -/
theorem doApply_self_target_witness :
    (sampleView.peek (sampleAPI.account
      (sampleTicketTx (some 1001) (some 7) 350).mTxnAccountID)).isSome = true ∧
    (sampleTicketTx (some 1001) (some 7) 350).mTxn.sfTarget =
      some (sampleTicketTx (some 1001) (some 7) 350).mTxnAccountID ∧
    (sampleTicketTx (some 1001) (some 7) 350).withoutTarget = sampleTicketTx (some 1001) none 350 ∧
    CreateTicket.doApply sampleLedger sampleAPI (sampleTicketTx (some 1001) (some 7) 350)
      sampleView =
      CreateTicket.doApply sampleLedger sampleAPI
        (sampleTicketTx (some 1001) (some 7) 350).withoutTarget sampleView :=
  ⟨by decide, by decide, by decide,
    (doApply_self_target sampleLedger sampleAPI (sampleTicketTx (some 1001) (some 7) 350)
      sampleView (by decide) (by decide)).1⟩

/-! ## Floor and ceiling of the exact ratio -/

theorem tmod_bounds_nonneg (m d : Int) (hm : 0 ≤ m) (hd : 0 < d) :
    0 ≤ m.tmod d ∧ m.tmod d < d :=
  ⟨Int.tmod_nonneg d hm, Int.tmod_lt_of_pos m hd⟩

theorem tmod_bounds_nonpos (m d : Int) (hm : m ≤ 0) (hd : 0 < d) :
    -d < m.tmod d ∧ m.tmod d ≤ 0 := by
  have h1 := tmod_bounds_nonneg (-m) d (by omega) hd
  have h2 : (-m).tmod d = -(m.tmod d) := by
    rw [Int.tmod_def, Int.neg_tdiv, Int.tmod_def]
    ring
  rw [h2] at h1
  omega

/-- Rounding down, the value `r` of `mulRatio` is the floor of the exact ratio. -/
theorem mulRatio_r_floor (drops : Int) (num den : Nat) (hden : den ≠ 0) :
    mulRatio_r drops num den false = ⌊((drops * (num : Int) : Int) : ℚ) / ((den : Nat) : ℚ)⌋ := by
  rw [Rat.floor_intCast_div_natCast]
  have hd : (0 : Int) < (den : Int) := by omega
  have hm := Int.tmod_add_tdiv (drops * (num : Int)) (den : Int)
  by_cases hneg : drops < 0
  · have hmle : drops * (num : Int) ≤ 0 :=
      Int.mul_nonpos_of_nonpos_of_nonneg (le_of_lt hneg) (Int.ofNat_nonneg num)
    have hb := tmod_bounds_nonpos _ _ hmle hd
    have hdec : decide (drops < 0) = true := by simpa using hneg
    unfold mulRatio_r
    simp only [hdec]
    by_cases hrem : (drops * (num : Int)).tmod (den : Int) = 0
    · simp only [hrem, ne_eq, not_true_eq_false, if_false]
      rw [hrem] at hm
      refine ((@Int.ediv_emod_unique _ _ 0 _ hd).mpr ⟨?_, le_refl 0, hd⟩).1.symm
      exact hm
    · simp only [ne_eq, hrem, not_false_eq_true, if_true, Bool.not_true, Bool.false_and,
        Bool.false_eq_true, if_false, Bool.not_false, Bool.and_self]
      refine ((@Int.ediv_emod_unique _ _ ((drops * (num : Int)).tmod (den : Int) + (den : Int))
        _ hd).mpr ⟨?_, ?_, ?_⟩).1.symm
      · rw [mul_sub, mul_one]
        omega
      · omega
      · omega
  · have hmge : 0 ≤ drops * (num : Int) :=
      Int.mul_nonneg (not_lt.mp hneg) (Int.ofNat_nonneg num)
    rw [mulRatio_r_nonneg drops num den false (not_lt.mp hneg)]
    simp only [Bool.false_eq_true, and_false, if_false, add_zero]
    exact Int.tdiv_eq_ediv hmge (le_of_lt hd)

/-- Rounding up, the value `r` of `mulRatio` is the ceiling of the exact ratio. -/
theorem mulRatio_r_ceil (drops : Int) (num den : Nat) (hden : den ≠ 0) :
    mulRatio_r drops num den true = ⌈((drops * (num : Int) : Int) : ℚ) / ((den : Nat) : ℚ)⌉ := by
  have hc : ⌈((drops * (num : Int) : Int) : ℚ) / ((den : Nat) : ℚ)⌉ =
      -((-(drops * (num : Int))) / (den : Int)) := by
    rw [← Rat.floor_intCast_div_natCast, ← Int.ceil_neg]
    congr 1
    push_cast
    ring
  rw [hc]
  have hd : (0 : Int) < (den : Int) := by omega
  have hm := Int.tmod_add_tdiv (drops * (num : Int)) (den : Int)
  by_cases hneg : drops < 0
  · have hmle : drops * (num : Int) ≤ 0 :=
      Int.mul_nonpos_of_nonpos_of_nonneg (le_of_lt hneg) (Int.ofNat_nonneg num)
    have hdec : decide (drops < 0) = true := by simpa using hneg
    have hr : mulRatio_r drops num den true = (drops * (num : Int)).tdiv (den : Int) := by
      unfold mulRatio_r
      simp only [hdec]
      split_ifs <;> simp_all
    rw [hr, ← Int.tdiv_eq_ediv (by omega : 0 ≤ -(drops * (num : Int))) (le_of_lt hd),
      Int.neg_tdiv, neg_neg]
  · have hmge : 0 ≤ drops * (num : Int) :=
      Int.mul_nonneg (not_lt.mp hneg) (Int.ofNat_nonneg num)
    have hb := tmod_bounds_nonneg _ _ hmge hd
    rw [mulRatio_r_nonneg drops num den true (not_lt.mp hneg)]
    by_cases hrem : (drops * (num : Int)).tmod (den : Int) = 0
    · simp only [hrem, ne_eq, not_true_eq_false, false_and, if_false, add_zero]
      rw [hrem] at hm
      have he : (-(drops * (num : Int))) / (den : Int) =
          -((drops * (num : Int)).tdiv (den : Int)) := by
        refine ((@Int.ediv_emod_unique _ _ 0 _ hd).mpr ⟨?_, le_refl 0, hd⟩).1
        rw [mul_neg]
        omega
      rw [he, neg_neg]
    · simp only [ne_eq, hrem, not_false_eq_true, and_self, if_true]
      have he : (-(drops * (num : Int))) / (den : Int) =
          -((drops * (num : Int)).tdiv (den : Int) + 1) := by
        refine ((@Int.ediv_emod_unique _ _
          ((den : Int) - (drops * (num : Int)).tmod (den : Int)) _ hd).mpr ⟨?_, ?_, ?_⟩).1
        · rw [mul_neg, mul_add, mul_one]
          omega
        · omega
        · omega
      rw [he, neg_neg]

/-! ## More claims on the amount type -/

/-- The converting constructor keeps a value that fits. -/
theorem ofInteger_drops (x : Int) (h : isInt64 x) : (XRPAmount.ofInteger x).drops = x := by
  unfold isInt64 INT64_MIN INT64_MAX at h
  unfold XRPAmount.ofInteger wrapInt64
  dsimp only
  omega

/-- C13: when the exact sum of two amounts lies in the signed 64-bit range, `a + b`
has exactly that sum as drops and `(a + b) - b == a`; when the exact difference
lies in the range, `a - b` has exactly that difference as drops; and for two
amounts between 0 and 10,757,000,000 drops both the sum and the difference lie
in the range. -/
theorem add_sub_exact (a b : XRPAmount) :
    (isInt64 (a.drops + b.drops) →
      (a.opAddAssign b).drops = a.drops + b.drops ∧
      ((a.opAddAssign b).opSubAssign b).opEq a = true ∧
      (a.opAddAssign b).opSubAssign b = a) ∧
    (isInt64 (a.drops - b.drops) → (a.opSubAssign b).drops = a.drops - b.drops) ∧
    (0 ≤ a.drops → a.drops ≤ 10757000000 → 0 ≤ b.drops → b.drops ≤ 10757000000 →
      isInt64 (a.drops + b.drops) ∧ isInt64 (a.drops - b.drops)) := by
  refine ⟨?_, ?_, ?_⟩
  · intro h
    have h1 : (a.opAddAssign b).drops = a.drops + b.drops := ofInteger_drops _ h
    have h2 : ((a.opAddAssign b).opSubAssign b).drops = a.drops := by
      unfold XRPAmount.opSubAssign
      rw [h1, ofInteger_drops]
      · omega
      · have := a.inRange
        rwa [show a.drops + b.drops - b.drops = a.drops by omega]
    refine ⟨h1, ?_, XRPAmount.ext h2⟩
    unfold XRPAmount.opEq
    rw [decide_eq_true_iff]
    exact h2
  · intro h
    exact ofInteger_drops _ h
  · intro h1 h2 h3 h4
    unfold isInt64 INT64_MIN INT64_MAX
    omega

/-- Witness for C13: 10,757,000,000 drops plus 10,757,000,000 drops, the two
largest legal balances. -/
theorem add_sub_exact_witness :
    ((⟨10757000000, by decide⟩ : XRPAmount).opAddAssign ⟨10757000000, by decide⟩).drops =
      21514000000 ∧
    (((⟨10757000000, by decide⟩ : XRPAmount).opAddAssign ⟨10757000000, by decide⟩).opSubAssign
      ⟨10757000000, by decide⟩).opEq ⟨10757000000, by decide⟩ = true :=
  ⟨((add_sub_exact ⟨10757000000, by decide⟩ ⟨10757000000, by decide⟩).1 (by decide)).1,
    ((add_sub_exact ⟨10757000000, by decide⟩ ⟨10757000000, by decide⟩).1 (by decide)).2.1⟩

/-- C15: `signum` is -1, 0 or +1; it is -1 iff the amount is below `XRPAmount (0)`,
0 iff it equals `XRPAmount (0)` and +1 iff `XRPAmount (0)` is below it; the
boolean conversion is true iff `signum` is not 0; `==` and `<` are equality
and order of the drops, and exactly one of `a < b`, `a == b`, `b < a` holds. -/
theorem signum_agrees_with_order (a b : XRPAmount) :
    (a.signum = -1 ∨ a.signum = 0 ∨ a.signum = 1) ∧
    (a.signum = -1 ↔ a.opLt (XRPAmount.ofInteger 0) = true) ∧
    (a.signum = 0 ↔ a.opEq (XRPAmount.ofInteger 0) = true) ∧
    (a.signum = 1 ↔ (XRPAmount.ofInteger 0).opLt a = true) ∧
    (a.opBool = true ↔ a.signum ≠ 0) ∧
    (a.opEq b = true ↔ a.drops = b.drops) ∧
    (a.opLt b = true ↔ a.drops < b.drops) ∧
    ((a.opLt b = true ∧ a.opEq b = false ∧ b.opLt a = false) ∨
      (a.opLt b = false ∧ a.opEq b = true ∧ b.opLt a = false) ∨
      (a.opLt b = false ∧ a.opEq b = false ∧ b.opLt a = true)) := by
  have h0 : (XRPAmount.ofInteger 0).drops = 0 := by decide
  unfold XRPAmount.signum XRPAmount.opLt XRPAmount.opEq XRPAmount.opBool
  rw [h0]
  refine ⟨?_, ?_, ?_, ?_, ?_, ?_, ?_, ?_⟩
  · split_ifs <;> omega
  · rw [decide_eq_true_iff]
    split_ifs <;> constructor <;> intro _ <;> first | omega | contradiction
  · rw [decide_eq_true_iff]
    split_ifs <;> constructor <;> intro _ <;> first | omega | contradiction
  · rw [decide_eq_true_iff]
    split_ifs <;> constructor <;> intro _ <;> first | omega | contradiction
  · rw [decide_eq_true_iff]
    split_ifs <;> constructor <;> intro _ <;> omega
  · exact decide_eq_true_iff
  · exact decide_eq_true_iff
  · simp only [decide_eq_true_iff, decide_eq_false_iff_not]
    omega

/-- C18 (fails on the code): at an amount of -(2^63 - 1) drops, numerator 5 and
denominator 2 the exact ratio is -23058430092136939517.5; `mulRatio` returns an
amount for either rounding flag, whatever the narrowing does out of range, and
the drops of the amount rounded down are not the floor of the ratio, nor are the
drops of the amount rounded up its ceiling. -/
theorem mulRatio_below_min_not_floor_nor_ceil (cv : Int128Conversion) :
    ∃ down up : XRPAmount,
      mulRatio cv ⟨-(2 ^ 63 - 1), by decide⟩ 5 2 false = .ok down ∧
      mulRatio cv ⟨-(2 ^ 63 - 1), by decide⟩ 5 2 true = .ok up ∧
      down.drops ≠ ⌊(((-(2 ^ 63 - 1) : Int) * ((5 : Nat) : Int) : Int) : ℚ) / ((2 : Nat) : ℚ)⌋ ∧
      up.drops ≠ ⌈(((-(2 ^ 63 - 1) : Int) * ((5 : Nat) : Int) : Int) : ℚ) / ((2 : Nat) : ℚ)⌉ := by
  have hf : mulRatio_r (-(2 ^ 63 - 1)) 5 2 false < INT64_MIN := by decide
  have hc : mulRatio_r (-(2 ^ 63 - 1)) 5 2 true < INT64_MIN := by decide
  refine ⟨_, _,
    mulRatio_ok_below cv ⟨-(2 ^ 63 - 1), by decide⟩ 5 2 false (by decide) hf,
    mulRatio_ok_below cv ⟨-(2 ^ 63 - 1), by decide⟩ 5 2 true (by decide) hc, ?_, ?_⟩
  · rw [← mulRatio_r_floor (-(2 ^ 63 - 1)) 5 2 (by decide)]
    show cv.convert_to (mulRatio_r (-(2 ^ 63 - 1)) 5 2 false) ≠ _
    have h := (cv.range (mulRatio_r (-(2 ^ 63 - 1)) 5 2 false)).1
    intro e
    rw [e] at h
    exact absurd hf (not_lt.mpr h)
  · rw [← mulRatio_r_ceil (-(2 ^ 63 - 1)) 5 2 (by decide)]
    show cv.convert_to (mulRatio_r (-(2 ^ 63 - 1)) 5 2 true) ≠ _
    have h := (cv.range (mulRatio_r (-(2 ^ 63 - 1)) 5 2 true)).1
    intro e
    rw [e] at h
    exact absurd hc (not_lt.mpr h)

/-- C20: the amount built from an unsigned 64-bit integer `v` has `v` drops when
`v < 2^63` and `v - 2^64` drops when `v ≥ 2^63`; in the second case the amount is
negative and `isLegalAmount` is true of it although `v` is above the supply bound
of 10,757,000,000 drops. -/
theorem ofInteger_uint64 (v : Nat) (hv : v < 2 ^ 64) :
    (v < 2 ^ 63 → (XRPAmount.ofInteger (v : Int)).drops = (v : Int)) ∧
    (2 ^ 63 ≤ v →
      (XRPAmount.ofInteger (v : Int)).drops = (v : Int) - 2 ^ 64 ∧
      (XRPAmount.ofInteger (v : Int)).drops < 0 ∧
      isLegalAmount (XRPAmount.ofInteger (v : Int)) = true ∧
      (10757000000 : Int) < (v : Int)) := by
  have hs : wrapInt64 (SYSTEM_CURRENCY_START : Int) = 10757000000 := by decide
  refine ⟨?_, ?_⟩
  · intro h
    unfold XRPAmount.ofInteger wrapInt64
    dsimp only
    omega
  · intro h
    have hd : (XRPAmount.ofInteger (v : Int)).drops = (v : Int) - 2 ^ 64 := by
      unfold XRPAmount.ofInteger wrapInt64
      dsimp only
      omega
    refine ⟨hd, ?_, ?_, ?_⟩
    · rw [hd]
      omega
    · unfold isLegalAmount
      rw [hs, decide_eq_true_iff, hd]
      omega
    · omega

/-- Witness for C20: the largest unsigned 64-bit integer gives the amount of -1
drop, which `isLegalAmount` accepts. -/
theorem ofInteger_uint64_witness :
    (XRPAmount.ofInteger ((18446744073709551615 : Nat) : Int)).drops =
      ((18446744073709551615 : Nat) : Int) - 2 ^ 64 ∧
    (XRPAmount.ofInteger ((18446744073709551615 : Nat) : Int)).drops < 0 ∧
    isLegalAmount (XRPAmount.ofInteger ((18446744073709551615 : Nat) : Int)) = true ∧
    (10757000000 : Int) < ((18446744073709551615 : Nat) : Int) :=
  (ofInteger_uint64 18446744073709551615 (by decide)).2 (by decide)

/-! ## Every way `doApply` returns -/

theorem newTicket_no_target {D : Type} (api : ViewAPI D) (self : CreateTicket)
    (expiration : Nat) :
    { (CreateTicket.newTicket api self expiration) with sfTarget := none } =
      CreateTicket.newTicket api self expiration := by
  unfold CreateTicket.newTicket SLE.make
  split_ifs <;> rfl

/-- Past the two tests and the insertion, a target that has no entry makes
`doApply` return at line 105, with the ticket in the view. -/
theorem doApply_unresolved {D : Type} (ledger : Ledger) (api : ViewAPI D)
    (self : CreateTicket) (view : View D) (account : SLE) (target : AccountID)
    (hacct : view.peek self.mTxnAccount = some account)
    (hres : ¬ self.mPriorBalance < CreateTicket.getAccountReserve ledger account)
    (hexp : ¬ (self.mTxn.sfExpiration.isSome = true ∧
      ledger.getParentCloseTimeNC ≥ self.expiration))
    (hfresh : view.peek (CreateTicket.newTicket api self self.expiration).index = none)
    (htgt : self.mTxn.sfTarget = some target)
    (hnone : View.peek
      { view with items := (CreateTicket.newTicket api self self.expiration) :: view.items }
      (api.account target) = none) :
    CreateTicket.doApply ledger api self view =
      some (TER.tecNO_TARGET,
        { view with items := (CreateTicket.newTicket api self self.expiration) :: view.items }) := by
  rw [doApply_past_checks ledger api self view account hacct hres hexp,
    insert_of_fresh view _ hfresh]
  simp only [htgt, hnone]

/-- Past the two tests and the insertion, a target that is absent from the
transaction or has an entry leads to the directory step, run on the view whose
front entry is the ticket with the target it is to carry. -/
theorem doApply_resolved {D : Type} (ledger : Ledger) (api : ViewAPI D)
    (self : CreateTicket) (view : View D) (account : SLE)
    (hacct : view.peek self.mTxnAccount = some account)
    (hres : ¬ self.mPriorBalance < CreateTicket.getAccountReserve ledger account)
    (hexp : ¬ (self.mTxn.sfExpiration.isSome = true ∧
      ledger.getParentCloseTimeNC ≥ self.expiration))
    (hfresh : view.peek (CreateTicket.newTicket api self self.expiration).index = none)
    (htgt : ∀ t, self.mTxn.sfTarget = some t →
      (View.peek
        { view with items := (CreateTicket.newTicket api self self.expiration) :: view.items }
        (api.account t)).isSome = true) :
    CreateTicket.doApply ledger api self view =
      some (CreateTicket.addToOwnerDir api self
        (CreateTicket.newTicket api self self.expiration).index
        { view with items :=
          { (CreateTicket.newTicket api self self.expiration) with
            sfTarget := self.storedTarget } :: view.items }) := by
  rw [doApply_past_checks ledger api self view account hacct hres hexp,
    insert_of_fresh view _ hfresh]
  unfold CreateTicket.storedTarget
  cases hT : self.mTxn.sfTarget with
  | none =>
    simp only []
    rw [newTicket_no_target]
  | some t =>
    obtain ⟨found, hfound⟩ := Option.isSome_iff_exists.mp (htgt t hT)
    simp only [hfound]
    by_cases hself : t = self.mTxnAccountID
    · rw [if_neg (not_not.mpr hself), if_neg (not_not.mpr hself), newTicket_no_target]
    · rw [if_pos hself, if_pos hself, modify_inserted]

/-- Every return of `doApply`: at the reserve test, at the expiration test, at
the target test, after a failed `dirAdd`, or at the end. -/
theorem doApply_outcome {D : Type} (ledger : Ledger) (api : ViewAPI D)
    (self : CreateTicket) (view : View D) (account : SLE) (result : TER) (view' : View D)
    (hacct : view.peek self.mTxnAccount = some account)
    (h : CreateTicket.doApply ledger api self view = some (result, view')) :
    (self.mPriorBalance < CreateTicket.getAccountReserve ledger account ∧
      result = TER.tecINSUFFICIENT_RESERVE ∧ view' = view) ∨
    (¬ self.mPriorBalance < CreateTicket.getAccountReserve ledger account ∧
      (self.mTxn.sfExpiration.isSome = true ∧ ledger.getParentCloseTimeNC ≥ self.expiration) ∧
      result = TER.tesSUCCESS ∧ view' = view) ∨
    (¬ self.mPriorBalance < CreateTicket.getAccountReserve ledger account ∧
      ¬ (self.mTxn.sfExpiration.isSome = true ∧ ledger.getParentCloseTimeNC ≥ self.expiration) ∧
      view.peek (CreateTicket.newTicket api self self.expiration).index = none ∧
      ((∃ t, self.mTxn.sfTarget = some t ∧ result = TER.tecNO_TARGET ∧
          view' = { view with items :=
            (CreateTicket.newTicket api self self.expiration) :: view.items }) ∨
        (∃ (r : TER) (hint : Nat) (dirs : D),
          api.dirAdd view.dirs (api.getOwnerDirIndex self.mTxnAccountID)
            (CreateTicket.newTicket api self self.expiration).index self.mTxnAccountID =
              (r, hint, dirs) ∧
          result = r ∧
          ((r ≠ TER.tesSUCCESS ∧
              view' = View.mk
                ({ (CreateTicket.newTicket api self self.expiration) with
                  sfTarget := self.storedTarget } :: view.items) dirs) ∨
            (r = TER.tesSUCCESS ∧
              view'.peek (CreateTicket.newTicket api self self.expiration).index =
                some { (CreateTicket.newTicket api self self.expiration) with
                  sfTarget := self.storedTarget, sfOwnerNode := some hint } ∧
              view'.peek self.mTxnAccount =
                some { account with
                  sfOwnerCount := some (getFieldU32 account.sfOwnerCount + 1) } ∧
              view'.dirs = dirs))))) := by
  by_cases hres : self.mPriorBalance < CreateTicket.getAccountReserve ledger account
  · rw [doApply_reserve_exit ledger api self view account hacct hres] at h
    injection h with h
    injection h with h1 h2
    exact Or.inl ⟨hres, h1.symm, h2.symm⟩
  · by_cases hexp : self.mTxn.sfExpiration.isSome = true ∧
        ledger.getParentCloseTimeNC ≥ self.expiration
    · rw [doApply_expired_exit ledger api self view account hacct hres hexp] at h
      injection h with h
      injection h with h1 h2
      exact Or.inr (Or.inl ⟨hres, hexp, h1.symm, h2.symm⟩)
    · by_cases hfresh : view.peek (CreateTicket.newTicket api self self.expiration).index = none
      · refine Or.inr (Or.inr ⟨hres, hexp, hfresh, ?_⟩)
        have hne : (CreateTicket.newTicket api self self.expiration).index ≠
            self.mTxnAccount := by
          intro e
          rw [e, hacct] at hfresh
          cases hfresh
        have hdirstep : (∀ t, self.mTxn.sfTarget = some t →
            (View.peek { view with items :=
              (CreateTicket.newTicket api self self.expiration) :: view.items }
              (api.account t)).isSome = true) →
            ∃ (r : TER) (hint : Nat) (dirs : D),
              api.dirAdd view.dirs (api.getOwnerDirIndex self.mTxnAccountID)
                (CreateTicket.newTicket api self self.expiration).index self.mTxnAccountID =
                  (r, hint, dirs) ∧
              result = r ∧
              ((r ≠ TER.tesSUCCESS ∧
                  view' = View.mk
                    ({ (CreateTicket.newTicket api self self.expiration) with
                      sfTarget := self.storedTarget } :: view.items) dirs) ∨
                (r = TER.tesSUCCESS ∧
                  view'.peek (CreateTicket.newTicket api self self.expiration).index =
                    some { (CreateTicket.newTicket api self self.expiration) with
                      sfTarget := self.storedTarget, sfOwnerNode := some hint } ∧
                  view'.peek self.mTxnAccount =
                    some { account with
                      sfOwnerCount := some (getFieldU32 account.sfOwnerCount + 1) } ∧
                  view'.dirs = dirs)) := by
          intro htgt
          rw [doApply_resolved ledger api self view account hacct hres hexp hfresh htgt] at h
          injection h with h
          rcases hd : api.dirAdd view.dirs (api.getOwnerDirIndex self.mTxnAccountID)
            (CreateTicket.newTicket api self self.expiration).index self.mTxnAccountID
            with ⟨r, hint, dirs⟩
          refine ⟨r, hint, dirs, rfl, ?_⟩
          by_cases hr : r = TER.tesSUCCESS
          · rw [hr] at hd
            obtain ⟨v2, e1, e2, e3, e4⟩ := addToOwnerDir_inserted api self view
              { (CreateTicket.newTicket api self self.expiration) with
                sfTarget := self.storedTarget }
              account hint dirs hacct hne hd
            rw [e1] at h
            injection h with h1 h2
            rw [← h2]
            exact ⟨h1.symm.trans hr.symm, Or.inr ⟨hr, e2, e3, e4⟩⟩
          · have hf := addToOwnerDir_failure api self
              (CreateTicket.newTicket api self self.expiration).index
              { view with items :=
                { (CreateTicket.newTicket api self self.expiration) with
                  sfTarget := self.storedTarget } :: view.items }
              r hint dirs hd hr
            rw [hf] at h
            injection h with h1 h2
            exact ⟨h1.symm, Or.inl ⟨hr, h2.symm⟩⟩
        cases hT : self.mTxn.sfTarget with
        | none =>
          refine Or.inr (hdirstep ?_)
          intro t ht
          rw [hT] at ht
          cases ht
        | some t =>
          cases hp : View.peek { view with items :=
              (CreateTicket.newTicket api self self.expiration) :: view.items }
              (api.account t) with
          | none =>
            rw [doApply_unresolved ledger api self view account t hacct hres hexp hfresh hT hp]
              at h
            injection h with h
            injection h with h1 h2
            exact Or.inl ⟨t, rfl, h1.symm, h2.symm⟩
          | some found =>
            refine Or.inr (hdirstep ?_)
            intro t' ht'
            rw [hT] at ht'
            injection ht' with ht'
            rw [← ht', hp]
            rfl
      · have hpres : (view.peek (CreateTicket.newTicket api self self.expiration).index).isSome
            = true := by
          cases hq : view.peek (CreateTicket.newTicket api self self.expiration).index with
          | none => exact absurd hq hfresh
          | some _ => rfl
        rw [doApply_past_checks ledger api self view account hacct hres hexp,
          insert_of_present view _ hpres] at h
        cases h

theorem after_expiration_test (ledger : Ledger) (self : CreateTicket)
    (hexp : ¬ (self.mTxn.sfExpiration.isSome = true ∧
      ledger.getParentCloseTimeNC ≥ self.expiration)) :
    ∀ e, self.mTxn.sfExpiration = some e → ledger.getParentCloseTimeNC < e := by
  intro e he
  unfold CreateTicket.expiration at hexp
  rw [he] at hexp
  simp only [Option.isSome_some, true_and, ge_iff_le, not_le] at hexp
  exact hexp

/-! ## Claims on `preCheck` and `transact_CreateTicket` -/

/-- C11: for a transaction whose expiration field is present and zero, `preCheck`
returns temBAD_EXPIRATION, whatever the base transactor and the view are, and
leaves the view as it was; for every other transaction (no expiration, or a
non-zero one) it returns the result of the base `Transactor::preCheck`. -/
theorem preCheck_bad_expiration {D : Type} (base : Transactor D) (st : PreCheckState D) :
    (st.self.mTxn.sfExpiration = some 0 →
      (CreateTicket.preCheck base st).1 = TER.temBAD_EXPIRATION ∧
      (CreateTicket.preCheck base st).2.view = st.view ∧
      ∀ (base' : Transactor D) (view' : View D),
        (CreateTicket.preCheck base' { st with view := view' }).1 = TER.temBAD_EXPIRATION) ∧
    (st.self.mTxn.sfExpiration ≠ some 0 →
      (CreateTicket.preCheck base st).1 = base.preCheck st.self.mTxn ∧
      (CreateTicket.preCheck base st).2 = st) := by
  refine ⟨?_, ?_⟩
  · intro h
    have key : ∀ (base' : Transactor D) (view' : View D),
        CreateTicket.preCheck base' { st with view := view' } =
          (TER.temBAD_EXPIRATION,
            { self := st.self, view := view',
              journal := st.journal ++ ["Malformed transaction: bad expiration"] }) := by
      intro base' view'
      unfold CreateTicket.preCheck getFieldU32
      simp [h]
    refine ⟨?_, ?_, ?_⟩
    · exact congrArg Prod.fst (key base st.view)
    · exact congrArg (fun p => p.2.view) (key base st.view)
    · intro base' view'
      exact congrArg Prod.fst (key base' view')
  · intro h
    unfold CreateTicket.preCheck getFieldU32
    cases he : st.self.mTxn.sfExpiration with
    | none => simp
    | some e =>
      have hne : e ≠ 0 := by
        intro e0
        rw [he, e0] at h
        exact h rfl
      simp [hne]

/-- Witness for C11: an expiration of zero is rejected on the sample view. -/
theorem preCheck_bad_expiration_witness :
    (CreateTicket.preCheck sampleTransactor
      { self := sampleTicketTx (some 0) none 350, view := sampleView, journal := [] }).1 =
      TER.temBAD_EXPIRATION :=
  ((preCheck_bad_expiration sampleTransactor
    { self := sampleTicketTx (some 0) none 350, view := sampleView, journal := [] }).1
    (by decide)).1

/-- C12: with the ticket feature flag off, `transact_CreateTicket` returns
temDISABLED for every transaction, parameters and view, whatever the stages of
the transactor would do, and leaves the view as it was; with the flag on, its
outcome is the outcome of `apply`. -/
theorem transact_CreateTicket_flag {D : Type} (base : Transactor D) (txn : STTx) (params : Nat)
    (engine : TransactionEngine D) :
    (engine.enableTickets = false →
      ∀ base' : Transactor D,
        transact_CreateTicket base' txn params engine = some (TER.temDISABLED, engine.view)) ∧
    (engine.enableTickets = true →
      transact_CreateTicket base txn params engine = base.apply txn params engine.view) := by
  refine ⟨?_, ?_⟩
  · intro h base'
    unfold transact_CreateTicket
    simp [h]
  · intro h
    unfold transact_CreateTicket
    simp [h]

/-- Witness for C12: the sample transactor, whose `apply` reports code 99, behind
a flag that is off and behind a flag that is on. -/
theorem transact_CreateTicket_flag_witness :
    transact_CreateTicket sampleTransactor (sampleTicketTx none none 350).mTxn 0
      { enableTickets := false, view := sampleView } = some (TER.temDISABLED, sampleView) ∧
    transact_CreateTicket sampleTransactor (sampleTicketTx none none 350).mTxn 0
      { enableTickets := true, view := sampleView } = some (TER.other 99, sampleView) :=
  ⟨(transact_CreateTicket_flag sampleTransactor (sampleTicketTx none none 350).mTxn 0
      { enableTickets := false, view := sampleView }).1 rfl sampleTransactor,
    (transact_CreateTicket_flag sampleTransactor (sampleTicketTx none none 350).mTxn 0
      { enableTickets := true, view := sampleView }).2 rfl⟩

/-- C14: the result of `preCheck` depends on the transaction alone; a second call
on the state the first call leaves returns the same result; and the first call
changes neither the transactor with its transaction nor the view, so a later
`doApply` runs as it would have without it. -/
theorem preCheck_deterministic {D : Type} (base : Transactor D) (st : PreCheckState D) :
    (CreateTicket.preCheck base (CreateTicket.preCheck base st).2).1 =
      (CreateTicket.preCheck base st).1 ∧
    (CreateTicket.preCheck base st).2.self = st.self ∧
    (CreateTicket.preCheck base st).2.view = st.view ∧
    (∀ st' : PreCheckState D, st'.self.mTxn = st.self.mTxn →
      (CreateTicket.preCheck base st').1 = (CreateTicket.preCheck base st).1) ∧
    (∀ (ledger : Ledger) (api : ViewAPI D),
      CreateTicket.doApply ledger api (CreateTicket.preCheck base st).2.self
        (CreateTicket.preCheck base st).2.view =
      CreateTicket.doApply ledger api st.self st.view) := by
  have hself : (CreateTicket.preCheck base st).2.self = st.self := by
    unfold CreateTicket.preCheck
    split_ifs <;> rfl
  have hview : (CreateTicket.preCheck base st).2.view = st.view := by
    unfold CreateTicket.preCheck
    split_ifs <;> rfl
  have htx : ∀ st' : PreCheckState D, st'.self.mTxn = st.self.mTxn →
      (CreateTicket.preCheck base st').1 = (CreateTicket.preCheck base st).1 := by
    intro st' h
    unfold CreateTicket.preCheck
    rw [h]
    split_ifs <;> rfl
  refine ⟨htx _ (congrArg CreateTicket.mTxn hself), hself, hview, htx, ?_⟩
  intro ledger api
  rw [hself, hview]

/-! ## Claims on the effects of `doApply` -/

/-- C16: for a request that passes the reserve, expiration and target tests and
whose ticket went into the view, a `dirAdd` that returns `r` other than
tesSUCCESS makes `doApply` return `r`, with the account entry (its owner count
included) as before and no owner node on the ticket; and on every return of
`doApply` the account entry is either as before, or `dirAdd` returned tesSUCCESS,
the result is tesSUCCESS and the owner count is one more than before. -/
theorem doApply_owner_count_last {D : Type} (ledger : Ledger) (api : ViewAPI D)
    (self : CreateTicket) (view : View D) (account : SLE)
    (hacct : view.peek self.mTxnAccount = some account) :
    (∀ (r : TER) (hint : Nat) (dirs : D),
      ((ledger.getReserve ((getFieldU32 account.sfOwnerCount + 1) % 2 ^ 32) : Nat) : Int)
        ≤ self.mPriorBalance →
      (∀ e, self.mTxn.sfExpiration = some e → ledger.getParentCloseTimeNC < e) →
      (∀ t, self.mTxn.sfTarget = some t → (view.peek (api.account t)).isSome = true) →
      view.peek (api.getTicketIndex self.mTxnAccountID self.mTxn.getSequence) = none →
      api.dirAdd view.dirs (api.getOwnerDirIndex self.mTxnAccountID)
        (api.getTicketIndex self.mTxnAccountID self.mTxn.getSequence) self.mTxnAccountID =
          (r, hint, dirs) →
      r ≠ TER.tesSUCCESS →
      ∃ (view' : View D) (ticket : SLE),
        CreateTicket.doApply ledger api self view = some (r, view') ∧
        view'.peek self.mTxnAccount = some account ∧
        view'.peek (api.getTicketIndex self.mTxnAccountID self.mTxn.getSequence) =
          some ticket ∧
        ticket.sfOwnerNode = none) ∧
    (∀ (result : TER) (view' : View D),
      CreateTicket.doApply ledger api self view = some (result, view') →
      view'.peek self.mTxnAccount = some account ∨
      (∃ (hint : Nat) (dirs : D),
        api.dirAdd view.dirs (api.getOwnerDirIndex self.mTxnAccountID)
          (api.getTicketIndex self.mTxnAccountID self.mTxn.getSequence) self.mTxnAccountID =
            (TER.tesSUCCESS, hint, dirs) ∧
        result = TER.tesSUCCESS ∧
        view'.peek self.mTxnAccount =
          some { account with sfOwnerCount := some (getFieldU32 account.sfOwnerCount + 1) })) := by
  have hidx := newTicket_index api self self.expiration
  have hfld := newTicket_fields api self self.expiration
  refine ⟨?_, ?_⟩
  · intro r hint dirs hres hexp htgt hfresh hdir hr
    rw [← hidx] at hfresh hdir ⊢
    have hne : (CreateTicket.newTicket api self self.expiration).index ≠ self.mTxnAccount := by
      intro e
      rw [e, hacct] at hfresh
      cases hfresh
    have htgt' : ∀ t, self.mTxn.sfTarget = some t →
        (View.peek { view with items :=
          (CreateTicket.newTicket api self self.expiration) :: view.items }
          (api.account t)).isSome = true := by
      intro t ht
      rw [peek_cons]
      split_ifs
      · rfl
      · exact htgt t ht
    have hf := addToOwnerDir_failure api self
      (CreateTicket.newTicket api self self.expiration).index
      { view with items :=
        { (CreateTicket.newTicket api self self.expiration) with
          sfTarget := self.storedTarget } :: view.items }
      r hint dirs hdir hr
    refine ⟨View.mk ({ (CreateTicket.newTicket api self self.expiration) with
        sfTarget := self.storedTarget } :: view.items) dirs,
      { (CreateTicket.newTicket api self self.expiration) with
        sfTarget := self.storedTarget }, ?_, ?_, ?_, hfld.2.2.2.2⟩
    · rw [doApply_resolved ledger api self view account hacct (not_lt.mpr hres)
        (not_expired ledger self hexp) hfresh htgt', hf]
    · have hp := peek_cons { view with dirs := dirs }
        { (CreateTicket.newTicket api self self.expiration) with
          sfTarget := self.storedTarget } self.mTxnAccount
      rw [if_neg hne] at hp
      exact hp.trans hacct
    · have hp := peek_cons { view with dirs := dirs }
        { (CreateTicket.newTicket api self self.expiration) with
          sfTarget := self.storedTarget }
        (CreateTicket.newTicket api self self.expiration).index
      rw [if_pos rfl] at hp
      exact hp
  · intro result view' h
    rcases doApply_outcome ledger api self view account result view' hacct h with
      ⟨_, _, hv⟩ | ⟨_, _, _, hv⟩ | ⟨_, _, hfresh, hcase⟩
    · rw [hv]
      exact Or.inl hacct
    · rw [hv]
      exact Or.inl hacct
    · have hne : (CreateTicket.newTicket api self self.expiration).index ≠
          self.mTxnAccount := by
        intro e
        rw [e, hacct] at hfresh
        cases hfresh
      rcases hcase with ⟨t, _, _, hv⟩ | ⟨r, hint, dirs, hdir, hres, hv | ⟨hr, _, hcount, _⟩⟩
      · rw [hv, peek_cons, if_neg hne]
        exact Or.inl hacct
      · rw [hv.2]
        have hp := peek_cons { view with dirs := dirs }
          { (CreateTicket.newTicket api self self.expiration) with
            sfTarget := self.storedTarget } self.mTxnAccount
        rw [if_neg hne] at hp
        exact Or.inl (hp.trans hacct)
      · rw [hr, hidx] at hdir
        exact Or.inr ⟨hint, dirs, hdir, hres.trans hr, hcount⟩

/-- Witness for C16: the request of account 7 with the existing target 9, on a
directory that is full: the result is the code of `dirAdd`, the account entry
still has owner count 2 and the ticket has no owner node. -/
theorem doApply_owner_count_last_witness :
    sampleView.peek (sampleTicketTx (some 1001) (some 9) 350).mTxnAccount =
      some (sampleAccount 7 2 340) ∧
    ∃ (view' : View (List (Key × Key))) (ticket : SLE),
      CreateTicket.doApply sampleLedger fullDirAPI (sampleTicketTx (some 1001) (some 9) 350)
        sampleView = some (TER.other 121, view') ∧
      view'.peek (sampleTicketTx (some 1001) (some 9) 350).mTxnAccount =
        some (sampleAccount 7 2 340) ∧
      view'.peek (fullDirAPI.getTicketIndex 7 4) = some ticket ∧
      ticket.sfOwnerNode = none :=
  ⟨by decide,
    (doApply_owner_count_last sampleLedger fullDirAPI (sampleTicketTx (some 1001) (some 9) 350)
      sampleView (sampleAccount 7 2 340) (by decide)).1 (TER.other 121) 0 []
      (by decide) (by decide) (by decide) (by decide) (by decide) (by decide)⟩

/-- C17: on every return of `doApply` with tecINSUFFICIENT_RESERVE, with
tecNO_TARGET, or with tesSUCCESS for an expiration that is not after the parent
close time, the owner directories and the account entry, its owner count
included, are as before the call.  The codes tecINSUFFICIENT_RESERVE and
tecNO_TARGET are those of the reserve and target tests: `dirAdd` is taken not to
hand them back. -/
theorem doApply_early_returns_keep_directory {D : Type} (ledger : Ledger) (api : ViewAPI D)
    (self : CreateTicket) (view : View D) (account : SLE) (result : TER) (view' : View D)
    (hacct : view.peek self.mTxnAccount = some account)
    (h : CreateTicket.doApply ledger api self view = some (result, view'))
    (hexit : result = TER.tecINSUFFICIENT_RESERVE ∨ result = TER.tecNO_TARGET ∨
      (result = TER.tesSUCCESS ∧ self.mTxn.sfExpiration.isSome = true ∧
        ledger.getParentCloseTimeNC ≥ self.expiration))
    (hdir : (api.dirAdd view.dirs (api.getOwnerDirIndex self.mTxnAccountID)
        (api.getTicketIndex self.mTxnAccountID self.mTxn.getSequence) self.mTxnAccountID).1 ≠
          TER.tecINSUFFICIENT_RESERVE ∧
      (api.dirAdd view.dirs (api.getOwnerDirIndex self.mTxnAccountID)
        (api.getTicketIndex self.mTxnAccountID self.mTxn.getSequence) self.mTxnAccountID).1 ≠
          TER.tecNO_TARGET) :
    view'.dirs = view.dirs ∧ view'.peek self.mTxnAccount = some account := by
  have hidx := newTicket_index api self self.expiration
  rcases doApply_outcome ledger api self view account result view' hacct h with
    ⟨_, _, hv⟩ | ⟨_, _, _, hv⟩ | ⟨_, hexp, hfresh, hcase⟩
  · rw [hv]
    exact ⟨rfl, hacct⟩
  · rw [hv]
    exact ⟨rfl, hacct⟩
  · have hne : (CreateTicket.newTicket api self self.expiration).index ≠
        self.mTxnAccount := by
      intro e
      rw [e, hacct] at hfresh
      cases hfresh
    rcases hcase with ⟨t, _, _, hv⟩ | ⟨r, hint, dirs, hd, hres, hrest⟩
    · rw [hv]
      refine ⟨rfl, ?_⟩
      rw [peek_cons, if_neg hne]
      exact hacct
    · rw [hidx] at hd
      rw [hd] at hdir
      rcases hexit with he | he | ⟨he, hx⟩
      · exact absurd (hres.symm.trans he) hdir.1
      · exact absurd (hres.symm.trans he) hdir.2
      · exact absurd hx hexp

/-- Witness for C17: the request of account 7 that names the missing account 8
returns tecNO_TARGET; the directory is still empty and the account entry still
has owner count 2. -/
theorem doApply_early_returns_keep_directory_witness :
    CreateTicket.doApply sampleLedger sampleAPI (sampleTicketTx (some 1001) (some 8) 350)
      sampleView =
      some (TER.tecNO_TARGET,
        { sampleView with items :=
          (CreateTicket.newTicket sampleAPI (sampleTicketTx (some 1001) (some 8) 350) 1001)
            :: sampleView.items }) ∧
    View.dirs { sampleView with items :=
        (CreateTicket.newTicket sampleAPI (sampleTicketTx (some 1001) (some 8) 350) 1001)
          :: sampleView.items } = sampleView.dirs ∧
    View.peek { sampleView with items :=
        (CreateTicket.newTicket sampleAPI (sampleTicketTx (some 1001) (some 8) 350) 1001)
          :: sampleView.items }
      (sampleTicketTx (some 1001) (some 8) 350).mTxnAccount = some (sampleAccount 7 2 340) :=
  ⟨by decide,
    doApply_early_returns_keep_directory sampleLedger sampleAPI
      (sampleTicketTx (some 1001) (some 8) 350) sampleView (sampleAccount 7 2 340)
      TER.tecNO_TARGET _ (by decide) (by decide) (by decide) (by decide)⟩

/-- C19: whenever `doApply` returns with a ticket under a ticket index that was
free before the call, the ticket carries the expiration of the transaction
(present iff the transaction has one), a stored expiration is after the parent
close time and so not zero, and the local `expiration` is non-zero iff the field
is present; a request that passes the reserve test with a present expiration of
zero returns tesSUCCESS at the expiration test and leaves the view as it was. -/
theorem doApply_ticket_expiration {D : Type} (ledger : Ledger) (api : ViewAPI D)
    (self : CreateTicket) (view : View D) (account : SLE)
    (hacct : view.peek self.mTxnAccount = some account) :
    (∀ (result : TER) (view' : View D) (ticket : SLE),
      CreateTicket.doApply ledger api self view = some (result, view') →
      view.peek (api.getTicketIndex self.mTxnAccountID self.mTxn.getSequence) = none →
      view'.peek (api.getTicketIndex self.mTxnAccountID self.mTxn.getSequence) = some ticket →
      ticket.sfExpiration = self.mTxn.sfExpiration ∧
      (self.expiration ≠ 0 ↔ self.mTxn.sfExpiration.isSome = true) ∧
      (∀ e, ticket.sfExpiration = some e → ledger.getParentCloseTimeNC < e ∧ e ≠ 0)) ∧
    (self.mTxn.sfExpiration = some 0 →
      ((ledger.getReserve ((getFieldU32 account.sfOwnerCount + 1) % 2 ^ 32) : Nat) : Int)
        ≤ self.mPriorBalance →
      CreateTicket.doApply ledger api self view = some (TER.tesSUCCESS, view)) := by
  have hidx := newTicket_index api self self.expiration
  refine ⟨?_, ?_⟩
  · intro result view' ticket h hfresh hpeek
    rcases doApply_outcome ledger api self view account result view' hacct h with
      ⟨_, _, hv⟩ | ⟨_, _, _, hv⟩ | ⟨_, hexp, _, hcase⟩
    · rw [hv, hfresh] at hpeek
      cases hpeek
    · rw [hv, hfresh] at hpeek
      cases hpeek
    · have hafter := after_expiration_test ledger self hexp
      have hstored := newTicket_sfExpiration ledger api self hafter
      have hticket : ticket.sfExpiration = self.mTxn.sfExpiration := by
        rw [← hidx] at hpeek
        rcases hcase with ⟨t, _, _, hv⟩ | ⟨r, hint, dirs, _, _, hv | ⟨_, hp, _, _⟩⟩
        · rw [hv, peek_cons, if_pos rfl] at hpeek
          injection hpeek with hpeek
          rw [← hpeek]
          exact hstored
        · rw [hv.2] at hpeek
          have hp := peek_cons { view with dirs := dirs }
            { (CreateTicket.newTicket api self self.expiration) with
              sfTarget := self.storedTarget }
            (CreateTicket.newTicket api self self.expiration).index
          rw [if_pos rfl] at hp
          rw [hp] at hpeek
          injection hpeek with hpeek
          rw [← hpeek]
          exact hstored
        · rw [hp] at hpeek
          injection hpeek with hpeek
          rw [← hpeek]
          exact hstored
      refine ⟨hticket, ?_, ?_⟩
      · unfold CreateTicket.expiration
        cases he : self.mTxn.sfExpiration with
        | none => simp
        | some e =>
          have := hafter e he
          simp
          omega
      · intro e he
        rw [hticket] at he
        have := hafter e he
        omega
  · intro h0 hres
    exact doApply_expired_exit ledger api self view account hacct (not_lt.mpr hres)
      (by
        unfold CreateTicket.expiration
        rw [h0]
        exact ⟨rfl, Nat.zero_le _⟩)

/-- Witness for C19: the ticket that the request of account 7 with expiration
1001 leaves carries the expiration 1001, which is after the close time 1000; the
same request with expiration 0 returns tesSUCCESS and leaves the view alone. -/
theorem doApply_ticket_expiration_witness :
    CreateTicket.doApply sampleLedger sampleAPI (sampleTicketTx (some 1001) (some 9) 350)
      sampleView = some (TER.tesSUCCESS, sampleCreatedView) ∧
    sampleCreatedView.peek (sampleAPI.getTicketIndex 7 4) = some sampleCreatedTicket ∧
    (sampleCreatedTicket.sfExpiration = some 1001 ∧
      ((sampleTicketTx (some 1001) (some 9) 350).expiration ≠ 0 ↔
        (sampleTicketTx (some 1001) (some 9) 350).mTxn.sfExpiration.isSome = true) ∧
      (∀ e, sampleCreatedTicket.sfExpiration = some e →
        sampleLedger.getParentCloseTimeNC < e ∧ e ≠ 0)) ∧
    CreateTicket.doApply sampleLedger sampleAPI (sampleTicketTx (some 0) (some 9) 350)
      sampleView = some (TER.tesSUCCESS, sampleView) :=
  ⟨by decide, by decide,
    (doApply_ticket_expiration sampleLedger sampleAPI (sampleTicketTx (some 1001) (some 9) 350)
      sampleView (sampleAccount 7 2 340) (by decide)).1 TER.tesSUCCESS sampleCreatedView
      sampleCreatedTicket (by decide) (by decide) (by decide),
    (doApply_ticket_expiration sampleLedger sampleAPI (sampleTicketTx (some 0) (some 9) 350)
      sampleView (sampleAccount 7 2 340) (by decide)).2 (by decide) (by decide)⟩

end ripple
